import Mathlib

set_option maxHeartbeats 1000000

/-!
Shallow embedding of the iOptron telescope driver
(`src/drivers/iOptron/Telescope/telescopedriver_iOptron.cpp`).

C strings are modelled as `List Char` (the bytes of the buffer up to its
terminating NUL).  The `double` arithmetic of the driver is modelled as exact
rational arithmetic: every quantity the decoders and encoders handle is an
integer count of 0.01 arc-seconds divided by a fixed power-of-ten scale, far
inside the range where an IEEE double decides all the comparisons the source
performs exactly, so `ℚ` is a faithful model.  `int64_t` casts of doubles are
truncation toward zero (`truncC`).
-/

/-- Character class used by the C library functions `atoi`/`atoll` when they
skip leading whitespace (the characters accepted by C `isspace`). -/
def isWhitespaceC (c : Char) : Bool :=
  c == ' ' || c == '\t' || c == '\n' || c == '\x0b' || c == '\x0c' || c == '\r'

/-- Numeric value of an ASCII digit character (`c - '0'` for a digit). -/
def digitVal (c : Char) : ℕ := c.toNat - 48

/-- Value of a list of ASCII digit characters, most significant first. -/
def digitsToNat (l : List Char) : ℕ := l.foldl (fun a c => 10 * a + digitVal c) 0

/-- Behaviour of C `atoi`/`atoll` on the bytes of a string: skip leading
whitespace, read an optional sign, then read the leading run of decimal
digits.  The result is the mathematical integer; this is exact only while
the value fits the C result type (`int` for `atoi`, `long long` for
`atoll`), so the fixed 8/9-digit wire fields are always exact and every
theorem that quantifies over digit runs carries an explicit bound keeping
the value below `2 ^ 31`. -/
def atoiM (s : List Char) : ℤ :=
  match s.dropWhile isWhitespaceC with
  | [] => 0
  | c :: rest =>
    if c = '-' then -(digitsToNat (rest.takeWhile Char.isDigit) : ℤ)
    else if c = '+' then (digitsToNat (rest.takeWhile Char.isDigit) : ℤ)
    else (digitsToNat ((c :: rest).takeWhile Char.isDigit) : ℤ)

/-- Truncation toward zero, the semantics of the C cast `(int64_t)` applied
to a (here: exactly representable) `double` value. -/
def truncC (q : ℚ) : ℤ := if 0 ≤ q then ⌊q⌋ else ⌈q⌉

/-- Model of `sprintf` with a zero-padded fixed-width decimal format
(`"%09lld"` for `fmtDigits 9`, `"%08lld"` for `fmtDigits 8`) applied to a
non-negative argument.  It produces exactly `w` ASCII digit characters, most
significant first; the source only ever formats arguments below `10 ^ w`
(they are clamped first), where this agrees with `sprintf`. -/
def fmtDigits : ℕ → ℕ → List Char
  | 0, _ => []
  | w + 1, n => Char.ofNat (48 + n / 10 ^ w % 10) :: fmtDigits w n

/-- One pass of the first normalization loop of `iOptron_ParseRA`
(`while (hours_Dbl >= 24.0) hours_Dbl -= 24.0;`), run with explicit fuel.
The fuel passed by `norm24` strictly exceeds the number of iterations the
C loop performs, so the model computes exactly the loop's result
(`subLoop24_eq`). -/
def subLoop24 : ℕ → ℚ → ℚ
  | 0, q => q
  | fuel + 1, q => if 24 ≤ q then subLoop24 fuel (q - 24) else q

/-- One pass of the second normalization loop of `iOptron_ParseRA`
(`while (hours_Dbl < 0.0) hours_Dbl += 24.0;`), run with explicit fuel, cf.
`subLoop24`. -/
def addLoop24 : ℕ → ℚ → ℚ
  | 0, q => q
  | fuel + 1, q => if q < 0 then addLoop24 fuel (q + 24) else q

/-- The normalization performed at the end of `iOptron_ParseRA`: first the
subtract-24 loop, then the add-24 loop.  The fuel arguments strictly exceed
the iteration counts of the two C loops (`norm24_eq` proves the closed
form). -/
def norm24 (q : ℚ) : ℚ :=
  let q1 := subLoop24 ((⌊q / 24⌋).toNat + 1) q
  addLoop24 ((-⌊q1 / 24⌋).toNat + 1) q1

/-- Tracking-rate enumeration `TYPE_DriveRates` from the host framework. -/
inductive TYPE_DriveRates where
  | driveSidereal
  | driveLunar
  | driveSolar
  | driveKing
deriving DecidableEq

/-- Alpaca result codes (`TYPE_ASCOM_STATUS`) returned by the intent calls. -/
inductive TYPE_ASCOM_STATUS where
  | Success
  | NotConnected
  | InvalidValue
  | NotImplemented
deriving DecidableEq

/-- The driver state the protocol engine touches: the `cTelescopeProp`
fields the decoders write, the info-valid flag, the communication-error
counter, the stored raw strings, the connection flags and the outbound
command queue. -/
structure TelescopeState where
  RightAscension : ℚ
  Declination : ℚ
  Slewing : Bool
  Tracking : Bool
  AtPark : Bool
  TrackingRate : TYPE_DriveRates
  cTelescopeInfoValid : Bool
  cIOptron_CommErrCnt : ℕ
  cTelescopeRA_String : List Char
  cTelescopeDEC_String : List Char
  cTelescopeStatus_String : List Char
  cConnected : Bool
  cTelescopeConnectionOpen : Bool
  cCmdQueue : List (List Char)
deriving DecidableEq

/-- A state with everything cleared, as after construction. -/
def initialTelescopeState : TelescopeState :=
  ⟨0, 0, false, false, false, .driveSidereal, false, 0, [], [], [], false, false, []⟩

/-- A cleared state whose connection flags are set (connected, link open). -/
def openState : TelescopeState :=
  { initialTelescopeState with cConnected := true, cTelescopeConnectionOpen := true }

/-- Embedding of `CheckForValidResponse`: the reply is valid iff it is
non-empty and its last character is the terminator character. -/
def CheckForValidResponse (s : List Char) : Bool :=
  if 0 < s.length then s.getD (s.length - 1) ' ' == '#' else false

/-- The seconds block of `iOptron_ParseRA`: after the minute digits were
skipped, a further colon is followed by the seconds, read with `atoi`;
anything else leaves the field at 0. -/
def parseRA_sec (q : List Char) : ℤ :=
  match q with
  | ':' :: rest2 => atoiM rest2
  | _ => 0

/-- The minutes-and-seconds block of `iOptron_ParseRA`: once the hour digits
were skipped, a colon is followed by the minutes, read with `atoi`, and the
seconds are parsed after the minute digit run; anything else leaves both
fields at 0. -/
def parseRA_minsec (p : List Char) : ℤ × ℤ :=
  match p with
  | ':' :: rest => (atoiM rest, parseRA_sec (rest.dropWhile Char.isDigit))
  | _ => (0, 0)

/-- Embedding of `iOptron_ParseRA` (format `HH:MM:SS#`): `atoi` the hours,
skip the digit run from the start of the buffer, parse minutes and seconds
after their colons, then normalize `h + m/60 + s/3600` with the two 24-hour
loops. -/
def iOptron_ParseRA (dataBuffer : List Char) : ℚ :=
  if CheckForValidResponse dataBuffer then
    let hours := atoiM dataBuffer
    let ms := parseRA_minsec (dataBuffer.dropWhile Char.isDigit)
    norm24 ((hours : ℚ) + (ms.1 : ℚ) / 60 + (ms.2 : ℚ) / 3600)
  else 0

/-- Embedding of `iOptron_ParseDegMinSec` (format `sDD*MM:SS#`): optional
leading sign, degrees, minutes after a star, seconds after a colon. -/
def iOptron_ParseDegMinSec (dataBuffer : List Char) : ℚ :=
  if CheckForValidResponse dataBuffer then
    let sgn : ℤ × List Char :=
      match dataBuffer with
      | '+' :: rest => (1, rest)
      | '-' :: rest => (-1, rest)
      | l => (1, l)
    let degrees := atoiM sgn.2
    let p := sgn.2.dropWhile Char.isDigit
    let ms : ℤ × ℤ :=
      match p with
      | '*' :: rest =>
        let minutes := atoiM rest
        match rest.dropWhile Char.isDigit with
        | ':' :: rest2 => (minutes, atoiM rest2)
        | _ => (minutes, 0)
      | _ => (0, 0)
    (sgn.1 : ℚ) * ((degrees : ℚ) + (ms.1 : ℚ) / 60 + (ms.2 : ℚ) / 3600)
  else 0

/-- Embedding of `Process_RA_Response`: on a valid reply, parse the RA and
store it (plus the raw string when it fits) only when it is in `[0,24)`. -/
def Process_RA_Response (st : TelescopeState) (dataBuffer : List Char) :
    Bool × TelescopeState :=
  if CheckForValidResponse dataBuffer then
    let hours_Dbl := iOptron_ParseRA dataBuffer
    if 0 ≤ hours_Dbl ∧ hours_Dbl < 24 then
      let st1 := if dataBuffer.length < 32 then
          { st with cTelescopeRA_String := dataBuffer } else st
      (true, { st1 with RightAscension := hours_Dbl })
    else (true, st)
  else (false, st)

/-- Embedding of `Process_DEC_Response`: on a valid reply, parse the
declination and store it (plus the raw string when it fits) only when it is
in `[-90,90]`. -/
def Process_DEC_Response (st : TelescopeState) (dataBuffer : List Char) :
    Bool × TelescopeState :=
  if CheckForValidResponse dataBuffer then
    let degrees_Dbl := iOptron_ParseDegMinSec dataBuffer
    if -90 ≤ degrees_Dbl ∧ degrees_Dbl ≤ 90 then
      let st1 := if dataBuffer.length < 32 then
          { st with cTelescopeDEC_String := dataBuffer } else st
      (true, { st1 with Declination := degrees_Dbl })
    else (true, st)
  else (false, st)

/-- The declination store of `Process_GEP_Response`: keep the decoded value
only when it is inside `[-90, 90]`. -/
def gepUpdateDec (st : TelescopeState) (dec_degrees : ℚ) : TelescopeState :=
  if -90 ≤ dec_degrees ∧ dec_degrees ≤ 90 then
    { st with Declination := dec_degrees } else st

/-- The right-ascension store of `Process_GEP_Response`: keep the decoded
value only when it is inside `[0, 24)`. -/
def gepUpdateRA (st : TelescopeState) (ra_hours : ℚ) : TelescopeState :=
  if 0 ≤ ra_hours ∧ ra_hours < 24 then
    { st with RightAscension := ra_hours } else st

/-- The raw-string store of `Process_GEP_Response`: keep the reply text when
it fits the 32-byte field. -/
def gepStoreString (st : TelescopeState) (dataBuffer : List Char) : TelescopeState :=
  if dataBuffer.length < 32 then
    { st with cTelescopeDEC_String := dataBuffer } else st

/-- Embedding of `Process_GEP_Response`: on a valid reply of length at least
20, byte 0 is the declination sign, bytes 1-8 the declination and bytes 9-17
the right ascension, both in 0.01 arc-seconds; each is stored only when in
range, and the raw string is kept when it fits. -/
def Process_GEP_Response (st : TelescopeState) (dataBuffer : List Char) :
    Bool × TelescopeState :=
  if CheckForValidResponse dataBuffer then
    if 20 ≤ dataBuffer.length then
      let sign : ℤ := if dataBuffer.getD 0 ' ' = '-' then -1 else 1
      let decStr := (dataBuffer.drop 1).take 8
      let dec_arcsec_01 : ℤ := atoiM decStr * sign
      let dec_degrees : ℚ := (dec_arcsec_01 : ℚ) / (3600 * 100)
      let raStr := (dataBuffer.drop 9).take 9
      let ra_arcsec_01 : ℤ := atoiM raStr
      let ra_hours : ℚ := (ra_arcsec_01 : ℚ) / (15 * 3600 * 100)
      (true, gepStoreString (gepUpdateRA (gepUpdateDec st dec_degrees) ra_hours)
        dataBuffer)
    else (true, st)
  else (false, st)

/-- The raw-string store of `Process_GLS_Response`: keep the reply text when
it fits the 64-byte field. -/
def glsStoreString (st : TelescopeState) (dataBuffer : List Char) : TelescopeState :=
  if dataBuffer.length < 64 then
    { st with cTelescopeStatus_String := dataBuffer } else st

/-- The `switch (systemStatus)` block of `Process_GLS_Response`: codes 0-7
drive the (slewing, tracking, at-park) flags; anything else changes
nothing. -/
def glsApplySystemStatus (st0 : TelescopeState) (systemStatus : ℤ) : TelescopeState :=
  if systemStatus = 0 then { st0 with Slewing := false, Tracking := false }
  else if systemStatus = 1 then { st0 with Slewing := false, Tracking := true }
  else if systemStatus = 2 then { st0 with Slewing := true, Tracking := false }
  else if systemStatus = 3 then { st0 with Slewing := false, Tracking := true }
  else if systemStatus = 4 then { st0 with Slewing := true, Tracking := false }
  else if systemStatus = 5 then { st0 with Slewing := false, Tracking := true }
  else if systemStatus = 6 then
    { st0 with AtPark := true, Slewing := false, Tracking := false }
  else if systemStatus = 7 then { st0 with Slewing := false, Tracking := false }
  else st0

/-- The `switch (trackingRate)` block of `Process_GLS_Response`: codes 0-3
select the rate, anything else defaults to sidereal. -/
def glsApplyTrackingRate (st1 : TelescopeState) (trackingRate : ℤ) : TelescopeState :=
  if trackingRate = 0 then { st1 with TrackingRate := .driveSidereal }
  else if trackingRate = 1 then { st1 with TrackingRate := .driveLunar }
  else if trackingRate = 2 then { st1 with TrackingRate := .driveSolar }
  else if trackingRate = 3 then { st1 with TrackingRate := .driveKing }
  else { st1 with TrackingRate := .driveSidereal }

/-- Embedding of `Process_GLS_Response`: on a valid reply of length at least
23, store the raw string when it fits, decode the system-status digit at
offset 18 into the (slewing, tracking, at-park) flags, and the tracking-rate
digit at offset 19 (unknown rates default to sidereal). -/
def Process_GLS_Response (st : TelescopeState) (dataBuffer : List Char) :
    Bool × TelescopeState :=
  if CheckForValidResponse dataBuffer then
    if 23 ≤ dataBuffer.length then
      let st0 := glsStoreString st dataBuffer
      let systemStatus : ℤ := ((dataBuffer.getD 18 ' ').toNat : ℤ) - 48
      let st1 := glsApplySystemStatus st0 systemStatus
      let trackingRate : ℤ := ((dataBuffer.getD 19 ' ').toNat : ℤ) - 48
      (true, glsApplyTrackingRate st1 trackingRate)
    else (true, st)
  else (false, st)

/-- Embedding of `Process_iOptronResponse`: a valid reply whose first
character is a sign is dispatched to the RA parser when it contains a colon
anywhere, otherwise to the DEC parser when it contains a star; everything
else is left untouched. -/
def Process_iOptronResponse (st : TelescopeState) (dataBuffer : List Char) :
    Bool × TelescopeState :=
  if CheckForValidResponse dataBuffer then
    if dataBuffer.getD 0 ' ' = '+' ∨ dataBuffer.getD 0 ' ' = '-' then
      if dataBuffer.contains ':' then (true, (Process_RA_Response st dataBuffer).2)
      else if dataBuffer.contains '*' then
        (true, (Process_DEC_Response st dataBuffer).2)
      else (true, st)
    else (true, st)
  else (false, st)

/-- Which branch of `Process_iOptronResponse`'s dispatch fires (an observer
of the same conditions, used to state the routing claims). -/
inductive IOptronRoute where
  | toRA
  | toDEC
  | noRoute
deriving DecidableEq

/-- The dispatch decision of `Process_iOptronResponse` by itself. -/
def iOptronRouteOf (dataBuffer : List Char) : IOptronRoute :=
  if CheckForValidResponse dataBuffer then
    if dataBuffer.getD 0 ' ' = '+' ∨ dataBuffer.getD 0 ' ' = '-' then
      if dataBuffer.contains ':' then .toRA
      else if dataBuffer.contains '*' then .toDEC
      else .noRoute
    else .noRoute
  else .noRoute

/-- Modelled from the spec: `AddCmdToQueue` lives in the base class
`TelescopeDriverComm`, whose source is not part of this tree; per section 4.2
of the spec, enqueue appends the command at the tail of the queue. -/
def AddCmdToQueue (st : TelescopeState) (cmd : List Char) : TelescopeState :=
  { st with cCmdQueue := st.cCmdQueue ++ [cmd] }

/-- The clamped RA wire value computed by `Telescope_SlewToRA_DEC` and
`Telescope_SyncToRA_DEC`: hours to 0.01 arc-seconds, truncated, then clamped
into `[0, 129600000]`. -/
def raFieldValue (newRtAscen_Hours : ℚ) : ℤ :=
  let a := truncC (newRtAscen_Hours * 15 * 3600 * 100)
  let a1 := if a < 0 then 0 else a
  if a1 > 129600000 then 129600000 else a1

/-- The clamped declination wire value computed by `Telescope_SlewToRA_DEC`
and `Telescope_SyncToRA_DEC`: degrees to 0.01 arc-seconds, truncated, then
clamped into `[-32400000, 32400000]`. -/
def decFieldValue (newDeclination_Degrees : ℚ) : ℤ :=
  let d := truncC (newDeclination_Degrees * 3600 * 100)
  let d1 := if d < -32400000 then -32400000 else d
  if d1 > 32400000 then 32400000 else d1

/-- The RA set command built by the slew/sync encoders:
`sprintf(commandString, ":SRA%09lld#", ra_arcsec_01)`. -/
def raCommand (ra : ℚ) : List Char :=
  ":SRA".toList ++ fmtDigits 9 (raFieldValue ra).toNat ++ ['#']

/-- The declination set command built by the slew/sync encoders:
`":Sds+%08lld#"` for a non-negative value, `":Sds-%08lld#"` of the negated
value otherwise. -/
def decCommand (dec : ℚ) : List Char :=
  if 0 ≤ decFieldValue dec then
    ":Sds+".toList ++ fmtDigits 8 (decFieldValue dec).toNat ++ ['#']
  else
    ":Sds-".toList ++ fmtDigits 8 (-decFieldValue dec).toNat ++ ['#']

/-- Embedding of `Telescope_SlewToRA_DEC`: fail fast when not connected or
the link is not open, otherwise enqueue the RA set command, the declination
set command and `:MS1#`, mark slewing, and report success. -/
def Telescope_SlewToRA_DEC (st : TelescopeState)
    (newRtAscen_Hours newDeclination_Degrees : ℚ) :
    TYPE_ASCOM_STATUS × TelescopeState :=
  if st.cConnected = false then (.NotConnected, st)
  else if st.cTelescopeConnectionOpen = false then (.NotConnected, st)
  else
    let st1 := AddCmdToQueue st (raCommand newRtAscen_Hours)
    let st2 := AddCmdToQueue st1 (decCommand newDeclination_Degrees)
    let st3 := AddCmdToQueue st2 ":MS1#".toList
    (.Success, { st3 with Slewing := true })

/-- Embedding of `Telescope_SyncToRA_DEC`: like the slew encoder but the
final command is `:CM#` and the slewing flag is left alone. -/
def Telescope_SyncToRA_DEC (st : TelescopeState)
    (newRtAscen_Hours newDeclination_Degrees : ℚ) :
    TYPE_ASCOM_STATUS × TelescopeState :=
  if st.cConnected = false then (.NotConnected, st)
  else if st.cTelescopeConnectionOpen = false then (.NotConnected, st)
  else
    let st1 := AddCmdToQueue st (raCommand newRtAscen_Hours)
    let st2 := AddCmdToQueue st1 (decCommand newDeclination_Degrees)
    let st3 := AddCmdToQueue st2 ":CM#".toList
    (.Success, { st3 with Slewing := st3.Slewing })

/-- Embedding of the poll cycle `SendCmdsPeriodic`.  Transport I/O is
abstracted into the two optional replies: `none` models a cycle where the
`:GEP#` (resp. `:GLS#`) exchange produced no reply bytes, `some r` a cycle
where `r` was read back.  Mirrors the source: on no position reply only the
communication-error counter is bumped; on an invalid position reply the
counter is bumped and the info-valid flag is cleared; on a valid one the
info-valid flag is set; then the status reply, if any, is processed. -/
def SendCmdsPeriodic (st : TelescopeState)
    (gepReply glsReply : Option (List Char)) : Bool × TelescopeState :=
  if st.cTelescopeConnectionOpen = false then (false, st)
  else
    match gepReply with
    | some r =>
      let p := Process_GEP_Response st r
      let st1 := if p.1 then { p.2 with cTelescopeInfoValid := true }
        else { p.2 with cIOptron_CommErrCnt := p.2.cIOptron_CommErrCnt + 1,
                        cTelescopeInfoValid := false }
      let st2 := match glsReply with
        | some r2 => (Process_GLS_Response st1 r2).2
        | none => st1
      (p.1, st2)
    | none =>
      let st1 := { st with cIOptron_CommErrCnt := st.cIOptron_CommErrCnt + 1 }
      let st2 := match glsReply with
        | some r2 => (Process_GLS_Response st1 r2).2
        | none => st1
      (false, st2)

/-- A frame as read out of a byte memory: the bytes at addresses
`0, …, len-1`.  Used to state that the short-frame paths read no byte at or
beyond the frame's length. -/
def frameOfMem (mem : ℕ → Char) (len : ℕ) : List Char :=
  (List.range len).map mem

/-- Modelled from the spec (testable property, section 8): the position
frame built from the slew/sync encoder's wire fields exactly as the claim
words it - declination sign, 8 declination digits, 9 right-ascension
digits. -/
def specPositionFields (dec ra : ℚ) : List Char :=
  (if 0 ≤ decFieldValue dec then ['+'] else ['-'])
    ++ fmtDigits 8 (decFieldValue dec).natAbs
    ++ fmtDigits 9 (raFieldValue ra).toNat

/-- Modelled from the spec: the literal `sDDDDDDDDRRRRRRRRR#` frame of the
spec's round-trip property - sign, 8+9 digits and the terminator (19
characters in total). -/
def specPositionFrame (dec ra : ℚ) : List Char :=
  specPositionFields dec ra ++ ['#']

/-- The same frame with the two trailing status digits (pier side and
pointing state) that a real `:GEP#` reply carries, 21 characters in total. -/
def specPositionFrame21 (dec ra : ℚ) : List Char :=
  specPositionFields dec ra ++ ['0', '0', '#']

/-- Modelled from the spec: the RA parse as claim C9 words it - the leading
run of decimal digits are the hours. -/
def specRA_hours (s : List Char) : ℕ := digitsToNat (s.takeWhile Char.isDigit)

/-- Characters after the first occurrence of `c`. -/
def afterChar (c : Char) (s : List Char) : List Char :=
  (s.dropWhile (fun x => x != c)).drop 1

/-- Modelled from the spec: the digits after the first colon are the
minutes. -/
def specRA_minutes (s : List Char) : ℕ :=
  digitsToNat ((afterChar ':' s).takeWhile Char.isDigit)

/-- Modelled from the spec: the digits after the second colon are the
seconds. -/
def specRA_seconds (s : List Char) : ℕ :=
  digitsToNat ((afterChar ':' (afterChar ':' s)).takeWhile Char.isDigit)

/-- Modelled from the spec: the RA parser as claim C9 describes it,
`hours + minutes/60 + seconds/3600` normalized into `[0,24)`. -/
def specParseRA (s : List Char) : ℚ :=
  norm24 ((specRA_hours s : ℚ) + (specRA_minutes s : ℚ) / 60
    + (specRA_seconds s : ℚ) / 3600)

/-- A digit character is not one of the whitespace characters `atoi` skips. -/
lemma digit_not_ws {c : Char} (h : c.isDigit = true) : isWhitespaceC c = false := by
  simp only [isWhitespaceC, Bool.or_eq_false_iff, beq_eq_false_iff_ne]
  refine ⟨⟨⟨⟨⟨?_, ?_⟩, ?_⟩, ?_⟩, ?_⟩, ?_⟩ <;>
    (intro hc; subst hc; exact absurd h (by decide))

/-- A digit character is not the minus sign. -/
lemma digit_ne_minus {c : Char} (h : c.isDigit = true) : c ≠ '-' := by
  intro hc; subst hc; exact absurd h (by decide)

/-- A digit character is not the plus sign. -/
lemma digit_ne_plus {c : Char} (h : c.isDigit = true) : c ≠ '+' := by
  intro hc; subst hc; exact absurd h (by decide)

/-- takeWhile of an all-digit list is the list itself. -/
lemma takeWhile_all_digits :
    ∀ {l : List Char}, (∀ c ∈ l, c.isDigit = true) → l.takeWhile Char.isDigit = l := by
  intro l
  induction l with
  | nil => intro _; rfl
  | cons a t ih =>
    intro h
    have ha : a.isDigit = true := h a (List.mem_cons_self a t)
    simp [List.takeWhile_cons, ha, ih (fun c hc => h c (List.mem_cons_of_mem a hc))]

/-- takeWhile and dropWhile on a digit run followed by a non-digit. -/
lemma takeWhile_digits_append {A : List Char} (hA : ∀ c ∈ A, c.isDigit = true)
    {b : Char} (hb : b.isDigit = false) (r : List Char) :
    (A ++ b :: r).takeWhile Char.isDigit = A ∧
      (A ++ b :: r).dropWhile Char.isDigit = b :: r := by
  induction A with
  | nil => simp [List.takeWhile_cons, List.dropWhile_cons, hb]
  | cons a t ih =>
    have ha : a.isDigit = true := hA a (List.mem_cons_self a t)
    have iht := ih (fun c hc => hA c (List.mem_cons_of_mem a hc))
    simp [List.takeWhile_cons, List.dropWhile_cons, ha, iht.1, iht.2]

/-- atoiM on a buffer whose first byte is neither whitespace nor a sign just
reads the leading digit run. -/
lemma atoiM_head {c : Char} {t : List Char} (hws : isWhitespaceC c = false)
    (hm : c ≠ '-') (hp : c ≠ '+') :
    atoiM (c :: t) = (digitsToNat ((c :: t).takeWhile Char.isDigit) : ℤ) := by
  simp [atoiM, List.dropWhile_cons, hws, hm, hp]

/-- atoiM of an all-digit buffer is the value of its digits. -/
lemma atoiM_all_digits {l : List Char} (h : ∀ c ∈ l, c.isDigit = true) :
    atoiM l = (digitsToNat l : ℤ) := by
  cases l with
  | nil => rfl
  | cons a t =>
    have ha : a.isDigit = true := h a (List.mem_cons_self a t)
    rw [atoiM_head (digit_not_ws ha) (digit_ne_minus ha) (digit_ne_plus ha),
      takeWhile_all_digits h]

/-- atoiM of a digit run followed by a non-whitespace, non-sign, non-digit
byte reads exactly the digit run. -/
lemma atoiM_digits_append {A : List Char} (hA : ∀ c ∈ A, c.isDigit = true)
    {b : Char} (hb : b.isDigit = false) (hbws : isWhitespaceC b = false)
    (hbm : b ≠ '-') (hbp : b ≠ '+') (r : List Char) :
    atoiM (A ++ b :: r) = (digitsToNat A : ℤ) := by
  cases A with
  | nil =>
    rw [List.nil_append, atoiM_head hbws hbm hbp]
    simp [List.takeWhile_cons, hb, digitsToNat]
  | cons a t =>
    have ha : a.isDigit = true := hA a (List.mem_cons_self a t)
    rw [List.cons_append, atoiM_head (digit_not_ws ha) (digit_ne_minus ha)
      (digit_ne_plus ha), ← List.cons_append,
      (takeWhile_digits_append hA hb r).1]

/-- Folding the digit accumulator from an arbitrary start value. -/
lemma digitsToNat_foldl (l : List Char) (a : ℕ) :
    l.foldl (fun a c => 10 * a + digitVal c) a = a * 10 ^ l.length + digitsToNat l := by
  induction l generalizing a with
  | nil => simp [digitsToNat]
  | cons c t ih =>
    simp only [List.foldl_cons, List.length_cons, digitsToNat]
    rw [ih (10 * a + digitVal c), ih (10 * 0 + digitVal c)]
    ring

/-- Peeling the most significant digit off `digitsToNat`. -/
lemma digitsToNat_cons (c : Char) (l : List Char) :
    digitsToNat (c :: l) = digitVal c * 10 ^ l.length + digitsToNat l := by
  simp only [digitsToNat, List.foldl_cons]
  rw [digitsToNat_foldl l (10 * 0 + digitVal c)]
  ring_nf
  rw [digitsToNat_foldl l 0]
  ring

/-- fmtDigits always produces exactly its width in characters. -/
lemma fmtDigits_length (w n : ℕ) : (fmtDigits w n).length = w := by
  induction w with
  | zero => rfl
  | succ w ih => simp [fmtDigits, ih]

/-- An ASCII code `48 + d` with `d < 10` is a digit character. -/
lemma isDigit_ofNat_digit {d : ℕ} (h : d < 10) :
    (Char.ofNat (48 + d)).isDigit = true := by
  interval_cases d <;> decide

/-- The digit value of the character with ASCII code `48 + d`, `d < 10`. -/
lemma digitVal_ofNat_digit {d : ℕ} (h : d < 10) :
    digitVal (Char.ofNat (48 + d)) = d := by
  interval_cases d <;> decide

/-- Every character fmtDigits produces is a digit. -/
lemma fmtDigits_digits (w n : ℕ) : ∀ c ∈ fmtDigits w n, c.isDigit = true := by
  induction w with
  | zero => intro c hc; simp [fmtDigits] at hc
  | succ w ih =>
    intro c hc
    simp only [fmtDigits, List.mem_cons] at hc
    rcases hc with hc | hc
    · subst hc; exact isDigit_ofNat_digit (Nat.mod_lt _ (by norm_num))
    · exact ih c hc

/-- Reading back the fixed-width digits gives the value modulo `10 ^ w`. -/
lemma digitsToNat_fmtDigits (w n : ℕ) : digitsToNat (fmtDigits w n) = n % 10 ^ w := by
  induction w with
  | zero => simp [fmtDigits, digitsToNat, Nat.mod_one]
  | succ w ih =>
    rw [show (fmtDigits (w + 1) n) = Char.ofNat (48 + n / 10 ^ w % 10) :: fmtDigits w n
        from rfl, digitsToNat_cons, fmtDigits_length, ih,
      digitVal_ofNat_digit (Nat.mod_lt _ (by norm_num)), pow_succ,
      Nat.mod_mul]
    ring

/-- Reading back the fixed-width digits of an in-range value is exact. -/
lemma digitsToNat_fmtDigits_of_lt {w n : ℕ} (h : n < 10 ^ w) :
    digitsToNat (fmtDigits w n) = n := by
  rw [digitsToNat_fmtDigits, Nat.mod_eq_of_lt h]

/-- The subtract-24 loop does nothing below 24. -/
lemma subLoop24_of_lt {q : ℚ} (h : q < 24) (n : ℕ) : subLoop24 n q = q := by
  cases n with
  | zero => rfl
  | succ n => simp [subLoop24, not_le.mpr h]

/-- The add-24 loop does nothing on non-negative input. -/
lemma addLoop24_of_nonneg {q : ℚ} (h : 0 ≤ q) (n : ℕ) : addLoop24 n q = q := by
  cases n with
  | zero => rfl
  | succ n => simp [addLoop24, not_lt.mpr h]

/-- With enough fuel the subtract-24 loop computes reduction modulo 24 on
non-negative input. -/
lemma subLoop24_eq {n : ℕ} {q : ℚ} (h0 : 0 ≤ q) (hn : (⌊q / 24⌋).toNat < n) :
    subLoop24 n q = q - 24 * ⌊q / 24⌋ := by
  induction n generalizing q with
  | zero => exact absurd hn (Nat.not_lt_zero _)
  | succ n ih =>
    by_cases hq : 24 ≤ q
    · have h24 : (0 : ℚ) < 24 := by norm_num
      have h1 : (1 : ℤ) ≤ ⌊q / 24⌋ := by
        rw [Int.le_floor]
        exact (le_div_iff h24).mpr (by push_cast; linarith)
      have hfl : ⌊(q - 24) / 24⌋ = ⌊q / 24⌋ - 1 := by
        rw [show (q - 24) / 24 = q / 24 - ((1 : ℤ) : ℚ) by push_cast; ring,
          Int.floor_sub_int]
      have hrec := @ih (q - 24) (by linarith) (by rw [hfl]; omega)
      simp only [subLoop24, if_pos hq, hrec, hfl]
      push_cast
      ring
    · have hz : ⌊q / 24⌋ = 0 := by
        rw [Int.floor_eq_zero_iff]
        constructor
        · exact div_nonneg h0 (by norm_num)
        · rw [div_lt_one (by norm_num : (0:ℚ) < 24)]; linarith [not_le.mp hq]
      simp only [subLoop24, if_neg hq, hz]
      push_cast
      ring

/-- With enough fuel the add-24 loop computes reduction modulo 24 on input
below 24. -/
lemma addLoop24_eq {n : ℕ} {q : ℚ} (h24 : q < 24) (hn : (-⌊q / 24⌋).toNat < n) :
    addLoop24 n q = q - 24 * ⌊q / 24⌋ := by
  induction n generalizing q with
  | zero => exact absurd hn (Nat.not_lt_zero _)
  | succ n ih =>
    by_cases hq : q < 0
    · have hneg : ⌊q / 24⌋ ≤ -1 := by
        have : q / 24 < 0 := div_neg_of_neg_of_pos hq (by norm_num)
        have := Int.floor_lt.mpr (by exact_mod_cast this : q / 24 < ((0 : ℤ) : ℚ))
        omega
      have hfl : ⌊(q + 24) / 24⌋ = ⌊q / 24⌋ + 1 := by
        rw [show (q + 24) / 24 = q / 24 + ((1 : ℤ) : ℚ) by push_cast; ring,
          Int.floor_add_int]
      have hrec := @ih (q + 24) (by linarith) (by rw [hfl]; omega)
      simp only [addLoop24, if_pos hq, hrec, hfl]
      push_cast
      ring
    · have hz : ⌊q / 24⌋ = 0 := by
        rw [Int.floor_eq_zero_iff]
        constructor
        · exact div_nonneg (not_lt.mp hq) (by norm_num)
        · rw [div_lt_one (by norm_num : (0:ℚ) < 24)]; linarith
      simp only [addLoop24, if_neg hq, hz]
      push_cast
      ring

/-- Closed form of the two normalization loops: subtraction of the greatest
multiple of 24 not exceeding the value. -/
lemma norm24_eq (q : ℚ) : norm24 q = q - 24 * ⌊q / 24⌋ := by
  have h24 : (0 : ℚ) < 24 := by norm_num
  by_cases h : 0 ≤ q
  · have hs := @subLoop24_eq ((⌊q / 24⌋).toNat + 1) q h (Nat.lt_succ_self _)
    have h1 : (⌊q / 24⌋ : ℚ) ≤ q / 24 := Int.floor_le _
    have h2 : q / 24 < ⌊q / 24⌋ + 1 := Int.lt_floor_add_one _
    have hlo : (0 : ℚ) ≤ q - 24 * ⌊q / 24⌋ := by
      have := (le_div_iff h24).mp h1
      linarith
    have hhi : q - 24 * ⌊q / 24⌋ < 24 := by
      have := (div_lt_iff h24).mp h2
      push_cast at this ⊢
      linarith
    simp only [norm24, hs]
    exact addLoop24_of_nonneg hlo _
  · push_neg at h
    have hlt : q < 24 := by linarith
    simp only [norm24, subLoop24_of_lt hlt]
    exact addLoop24_eq hlt (Nat.lt_succ_self _)

/-- The normalized value is non-negative. -/
lemma norm24_nonneg (q : ℚ) : 0 ≤ norm24 q := by
  rw [norm24_eq]
  have h1 : (⌊q / 24⌋ : ℚ) ≤ q / 24 := Int.floor_le _
  have := (le_div_iff (by norm_num : (0:ℚ) < 24)).mp h1
  linarith

/-- The normalized value is below 24. -/
lemma norm24_lt_24 (q : ℚ) : norm24 q < 24 := by
  rw [norm24_eq]
  have h2 : q / 24 < ⌊q / 24⌋ + 1 := Int.lt_floor_add_one _
  have := (div_lt_iff (by norm_num : (0:ℚ) < 24)).mp h2
  push_cast at this ⊢
  linarith

/-- The value in `[0,24)` is untouched by the normalization. -/
lemma norm24_of_mem {q : ℚ} (h0 : 0 ≤ q) (h24 : q < 24) : norm24 q = q := by
  rw [norm24_eq]
  have hz : ⌊q / 24⌋ = 0 := by
    rw [Int.floor_eq_zero_iff]
    exact ⟨div_nonneg h0 (by norm_num),
      by rw [div_lt_one (by norm_num : (0:ℚ) < 24)]; linarith⟩
  rw [hz]
  push_cast
  ring

/-- getD at the index of the appended last element. -/
lemma getD_append_singleton (l : List Char) (a d : Char) :
    (l ++ [a]).getD l.length d = a := by
  induction l with
  | nil => rfl
  | cons c t ih => simpa using ih

/-- Any buffer ending in the terminator passes the validity check. -/
lemma checkValid_concat (l : List Char) :
    CheckForValidResponse (l ++ ['#']) = true := by
  have hlen : (l ++ ['#']).length = l.length + 1 := by simp
  simp only [CheckForValidResponse, hlen]
  rw [if_pos (Nat.succ_pos _)]
  simp only [Nat.add_sub_cancel]
  rw [getD_append_singleton]
  rfl

/-- Unfolding of the validity check into its two conditions. -/
lemma checkValid_true_iff (s : List Char) :
    CheckForValidResponse s = true ↔
      0 < s.length ∧ s.getD (s.length - 1) ' ' = '#' := by
  simp only [CheckForValidResponse]
  by_cases h : 0 < s.length
  · simp [h]
  · simp [h]

/-- Characters with the same code point are equal. -/
lemma char_toNat_inj {a b : Char} (h : a.toNat = b.toNat) : a = b := by
  have := congrArg Char.ofNat h
  rwa [Char.ofNat_toNat, Char.ofNat_toNat] at this

/-- A non-empty buffer is valid exactly when its last character is the
terminator (getLast? form). -/
lemma checkValid_getLast (s : List Char) :
    CheckForValidResponse s = true ↔ s ≠ [] ∧ s.getLast? = some '#' := by
  rw [checkValid_true_iff]
  constructor
  · rintro ⟨hpos, hlast⟩
    have hne : s ≠ [] := List.ne_nil_of_length_pos hpos
    obtain ⟨l, a, rfl⟩ := (List.eq_nil_or_concat' s).resolve_left hne
    refine ⟨hne, ?_⟩
    rw [List.getLast?_concat]
    have hlen : (l ++ [a]).length = l.length + 1 := by simp
    rw [hlen, Nat.add_sub_cancel, getD_append_singleton] at hlast
    rw [hlast]
  · rintro ⟨hne, hlast⟩
    obtain ⟨l, a, rfl⟩ := (List.eq_nil_or_concat' s).resolve_left hne
    rw [List.getLast?_concat, Option.some_inj] at hlast
    subst hlast
    have hlen : (l ++ ['#']).length = l.length + 1 := by simp
    refine ⟨by simp, ?_⟩
    rw [hlen, Nat.add_sub_cancel, getD_append_singleton]

/-- Dispatcher behaviour on a valid frame without a leading sign. -/
lemma dispatch_no_sign {st : TelescopeState} {s : List Char}
    (hv : CheckForValidResponse s = true)
    (h : ¬(s.getD 0 ' ' = '+' ∨ s.getD 0 ' ' = '-')) :
    iOptronRouteOf s = .noRoute ∧ Process_iOptronResponse st s = (true, st) := by
  have h' : ¬(s[0]?.getD ' ' = '+' ∨ s[0]?.getD ' ' = '-') := by
    simpa using h
  constructor <;> simp [iOptronRouteOf, Process_iOptronResponse, hv, h']

/-- Dispatcher behaviour on a valid sign-led frame containing a colon. -/
lemma dispatch_colon {st : TelescopeState} {s : List Char}
    (hv : CheckForValidResponse s = true)
    (hs : s.getD 0 ' ' = '+' ∨ s.getD 0 ' ' = '-')
    (hc : s.contains ':' = true) :
    iOptronRouteOf s = .toRA ∧
      Process_iOptronResponse st s = (true, (Process_RA_Response st s).2) := by
  have hs' : s[0]?.getD ' ' = '+' ∨ s[0]?.getD ' ' = '-' := by simpa using hs
  have hc' : ':' ∈ s := by simpa using hc
  constructor <;> simp [iOptronRouteOf, Process_iOptronResponse, hv, hs', hc']

/-- Claim C3: the response-validity check accepts a string iff it is
non-empty and ends in the terminator, and whenever it fails, every decode
entry point (the generic dispatcher and the RA, DEC, GEP and GLS
processors) reports the frame invalid and returns the state unchanged in
every field. -/
theorem checkValid_iff_and_all_decoders_reject :
    (∀ s : List Char,
      CheckForValidResponse s = true ↔ (s ≠ [] ∧ s.getLast? = some '#')) ∧
    (∀ (st : TelescopeState) (s : List Char), CheckForValidResponse s = false →
      Process_iOptronResponse st s = (false, st) ∧
      Process_RA_Response st s = (false, st) ∧
      Process_DEC_Response st s = (false, st) ∧
      Process_GEP_Response st s = (false, st) ∧
      Process_GLS_Response st s = (false, st)) := by
  refine ⟨checkValid_getLast, fun st s h => ⟨?_, ?_, ?_, ?_, ?_⟩⟩ <;>
    simp [Process_iOptronResponse, Process_RA_Response, Process_DEC_Response,
      Process_GEP_Response, Process_GLS_Response, h]

/-- Witness for C3 at the spec's own example: `"1234"` has no terminator,
so it is invalid and the dispatcher leaves the state alone. -/
theorem checkValid_iff_and_all_decoders_reject_witness :
    CheckForValidResponse ("1234".toList) = false ∧
      Process_iOptronResponse openState ("1234".toList) = (false, openState) := by
  have h : CheckForValidResponse ("1234".toList) = false := by decide
  exact ⟨h, (checkValid_iff_and_all_decoders_reject.2 openState ("1234".toList) h).1⟩

/-- Claim C10: a valid frame reaches a coordinate parser only when its first
character is a sign; every sign-led frame containing a colon goes to the RA
parser (never the DEC parser), so the documented declination shape
`sDD*MM:SS#` is handed to the RA parser, while an unsigned RA-shaped frame
`HH:MM:SS#` reaches neither parser and the state is unchanged. -/
theorem response_dispatch_routing :
    (∀ (st : TelescopeState) (s : List Char), CheckForValidResponse s = true →
      (¬(s.getD 0 ' ' = '+' ∨ s.getD 0 ' ' = '-') →
        iOptronRouteOf s = .noRoute ∧ Process_iOptronResponse st s = (true, st)) ∧
      ((s.getD 0 ' ' = '+' ∨ s.getD 0 ' ' = '-') → s.contains ':' = true →
        iOptronRouteOf s = .toRA ∧
          Process_iOptronResponse st s = (true, (Process_RA_Response st s).2))) ∧
    (∀ st : TelescopeState,
      iOptronRouteOf ("+45*10:20#".toList) = .toRA ∧
      Process_iOptronResponse st ("+45*10:20#".toList)
          = (true, (Process_RA_Response st ("+45*10:20#".toList)).2) ∧
      iOptronRouteOf ("12:30:45#".toList) = .noRoute ∧
      Process_iOptronResponse st ("12:30:45#".toList) = (true, st)) := by
  constructor
  · intro st s hv
    exact ⟨fun h => dispatch_no_sign hv h, fun hs hc => dispatch_colon hv hs hc⟩
  · intro st
    have h1 := @dispatch_colon st ("+45*10:20#".toList) (by decide)
      (by decide) (by decide)
    have h2 := @dispatch_no_sign st ("12:30:45#".toList) (by decide)
      (by decide)
    exact ⟨h1.1, h1.2, h2.1, h2.2⟩

/-- Witness for C10 at a concrete valid frame of the declination shape. -/
theorem response_dispatch_routing_witness :
    iOptronRouteOf ("+45*10:20#".toList) = .toRA ∧
      Process_iOptronResponse openState ("12:30:45#".toList) = (true, openState) := by
  have h := response_dispatch_routing.2 openState
  exact ⟨h.1, h.2.2.2⟩

/-- Any frame shorter than 20 bytes leaves the state unchanged in
`Process_GEP_Response`. -/
lemma gep_short_state (st : TelescopeState) {s : List Char} (h : s.length < 20) :
    (Process_GEP_Response st s).2 = st := by
  by_cases hv : CheckForValidResponse s = true
  · simp [Process_GEP_Response, hv, show ¬ 20 ≤ s.length by omega]
  · simp [Process_GEP_Response, Bool.of_not_eq_true hv]

/-- Any frame shorter than 23 bytes leaves the state unchanged in
`Process_GLS_Response`. -/
lemma gls_short_state (st : TelescopeState) {s : List Char} (h : s.length < 23) :
    (Process_GLS_Response st s).2 = st := by
  by_cases hv : CheckForValidResponse s = true
  · simp [Process_GLS_Response, hv, show ¬ 23 ≤ s.length by omega]
  · simp [Process_GLS_Response, Bool.of_not_eq_true hv]

/-- Claim C4: a position frame shorter than 20 bytes is handled by the GEP
decoder without reading any byte at or beyond the frame's length (its result
only depends on the bytes below the length) and without mutating any state
field; a status frame shorter than 23 bytes likewise in the GLS decoder. -/
theorem short_frames_no_oob_no_mutation (mem memB : ℕ → Char) (len : ℕ)
    (st : TelescopeState) :
    (len < 20 → (∀ i, i < len → mem i = memB i) →
      Process_GEP_Response st (frameOfMem mem len)
          = Process_GEP_Response st (frameOfMem memB len) ∧
      (Process_GEP_Response st (frameOfMem mem len)).2 = st) ∧
    (len < 23 → (∀ i, i < len → mem i = memB i) →
      Process_GLS_Response st (frameOfMem mem len)
          = Process_GLS_Response st (frameOfMem memB len) ∧
      (Process_GLS_Response st (frameOfMem mem len)).2 = st) := by
  have hlen : ∀ mem2 : ℕ → Char, (frameOfMem mem2 len).length = len := by
    intro mem2; simp [frameOfMem]
  have hagree : (∀ i, i < len → mem i = memB i) →
      frameOfMem mem len = frameOfMem memB len := by
    intro ha
    exact List.map_congr_left (fun i hi => ha i (List.mem_range.mp hi))
  constructor
  · intro h20 ha
    exact ⟨by rw [hagree ha], gep_short_state st (by rw [hlen]; omega)⟩
  · intro h23 ha
    exact ⟨by rw [hagree ha], gls_short_state st (by rw [hlen]; omega)⟩

/-- Witness for C4: a concrete 5-byte frame against a memory that differs
beyond the frame gives the same, unchanged result. -/
theorem short_frames_no_oob_no_mutation_witness :
    Process_GEP_Response openState (frameOfMem (fun _ => 'x') 5)
        = Process_GEP_Response openState
            (frameOfMem (fun i => if i < 5 then 'x' else 'y') 5) ∧
      (Process_GEP_Response openState (frameOfMem (fun _ => 'x') 5)).2
        = openState :=
  (short_frames_no_oob_no_mutation (fun _ => 'x')
    (fun i => if i < 5 then 'x' else 'y') 5 openState).1 (by omega)
    (fun i hi => (if_pos hi).symm)

/-- Storing the status string changes no flag and no coordinate. -/
lemma glsStoreString_fields (st : TelescopeState) (s : List Char) :
    (glsStoreString st s).Slewing = st.Slewing ∧
    (glsStoreString st s).Tracking = st.Tracking ∧
    (glsStoreString st s).AtPark = st.AtPark ∧
    (glsStoreString st s).RightAscension = st.RightAscension ∧
    (glsStoreString st s).Declination = st.Declination ∧
    (glsStoreString st s).cIOptron_CommErrCnt = st.cIOptron_CommErrCnt ∧
    (glsStoreString st s).cTelescopeInfoValid = st.cTelescopeInfoValid := by
  unfold glsStoreString
  split <;> simp

/-- Applying the tracking rate changes no flag and no coordinate. -/
lemma glsApplyTrackingRate_fields (st : TelescopeState) (r : ℤ) :
    (glsApplyTrackingRate st r).Slewing = st.Slewing ∧
    (glsApplyTrackingRate st r).Tracking = st.Tracking ∧
    (glsApplyTrackingRate st r).AtPark = st.AtPark ∧
    (glsApplyTrackingRate st r).RightAscension = st.RightAscension ∧
    (glsApplyTrackingRate st r).Declination = st.Declination ∧
    (glsApplyTrackingRate st r).cIOptron_CommErrCnt = st.cIOptron_CommErrCnt ∧
    (glsApplyTrackingRate st r).cTelescopeInfoValid = st.cTelescopeInfoValid := by
  unfold glsApplyTrackingRate
  split_ifs <;> simp

/-- The status switch never touches the coordinates, the error counter or
the info-valid flag. -/
lemma glsApplySystemStatus_fields (st : TelescopeState) (c : ℤ) :
    (glsApplySystemStatus st c).RightAscension = st.RightAscension ∧
    (glsApplySystemStatus st c).Declination = st.Declination ∧
    (glsApplySystemStatus st c).cIOptron_CommErrCnt = st.cIOptron_CommErrCnt ∧
    (glsApplySystemStatus st c).cTelescopeInfoValid = st.cTelescopeInfoValid := by
  unfold glsApplySystemStatus
  split_ifs <;> simp

/-- The flag triple produced by the status switch, by code. -/
lemma glsApplySystemStatus_flags (st : TelescopeState) (c : ℤ) :
    ((glsApplySystemStatus st c).Slewing, (glsApplySystemStatus st c).Tracking,
      (glsApplySystemStatus st c).AtPark) =
      (if c = 0 then (false, false, st.AtPark)
       else if c = 1 then (false, true, st.AtPark)
       else if c = 2 then (true, false, st.AtPark)
       else if c = 3 then (false, true, st.AtPark)
       else if c = 4 then (true, false, st.AtPark)
       else if c = 5 then (false, true, st.AtPark)
       else if c = 6 then (false, false, true)
       else if c = 7 then (false, false, st.AtPark)
       else (st.Slewing, st.Tracking, st.AtPark)) := by
  unfold glsApplySystemStatus
  split_ifs <;> simp

/-- Reduction of the GLS processor on a valid, long-enough frame. -/
lemma gls_result (st : TelescopeState) (s : List Char)
    (hv : CheckForValidResponse s = true) (h23 : 23 ≤ s.length) :
    Process_GLS_Response st s =
      (true, glsApplyTrackingRate
        (glsApplySystemStatus (glsStoreString st s)
          (((s.getD 18 ' ').toNat : ℤ) - 48))
        (((s.getD 19 ' ').toNat : ℤ) - 48)) := by
  unfold Process_GLS_Response
  rw [if_pos hv, if_pos h23]

/-- The full flag triple of the GLS processor as a function of the offset-18
code. -/
lemma gls_flag_triple (st : TelescopeState) (s : List Char)
    (hv : CheckForValidResponse s = true) (h23 : 23 ≤ s.length) :
    ((Process_GLS_Response st s).2.Slewing, (Process_GLS_Response st s).2.Tracking,
      (Process_GLS_Response st s).2.AtPark) =
      (if ((s.getD 18 ' ').toNat : ℤ) - 48 = 0 then (false, false, st.AtPark)
       else if ((s.getD 18 ' ').toNat : ℤ) - 48 = 1 then (false, true, st.AtPark)
       else if ((s.getD 18 ' ').toNat : ℤ) - 48 = 2 then (true, false, st.AtPark)
       else if ((s.getD 18 ' ').toNat : ℤ) - 48 = 3 then (false, true, st.AtPark)
       else if ((s.getD 18 ' ').toNat : ℤ) - 48 = 4 then (true, false, st.AtPark)
       else if ((s.getD 18 ' ').toNat : ℤ) - 48 = 5 then (false, true, st.AtPark)
       else if ((s.getD 18 ' ').toNat : ℤ) - 48 = 6 then (false, false, true)
       else if ((s.getD 18 ' ').toNat : ℤ) - 48 = 7 then (false, false, st.AtPark)
       else (st.Slewing, st.Tracking, st.AtPark)) := by
  obtain ⟨s1, s2, s3, -⟩ := glsStoreString_fields st s
  obtain ⟨r1, r2, r3, -⟩ := glsApplyTrackingRate_fields
    (glsApplySystemStatus (glsStoreString st s) (((s.getD 18 ' ').toNat : ℤ) - 48))
    (((s.getD 19 ' ').toNat : ℤ) - 48)
  have hf := glsApplySystemStatus_flags (glsStoreString st s)
    (((s.getD 18 ' ').toNat : ℤ) - 48)
  rw [s1, s2, s3] at hf
  rw [gls_result st s hv h23]
  show ((glsApplyTrackingRate _ _).Slewing, (glsApplyTrackingRate _ _).Tracking,
    (glsApplyTrackingRate _ _).AtPark) = _
  rw [r1, r2, r3, hf]

/-- Claim C2: on a terminated status frame of length at least 23, the digit
at offset 18 drives the (slewing, tracking) flags exactly per the status
table of section 4.4, code 6 additionally sets at-park; the at-park flag is
untouched for every code other than 6, and an offset-18 character outside
the eight codes leaves all three flags at their pre-call values. -/
theorem gls_status_flags_table (st : TelescopeState) (s : List Char)
    (hlen : 23 ≤ s.length) (hterm : s.getD (s.length - 1) ' ' = '#') :
    (Process_GLS_Response st s).1 = true ∧
    (s.getD 18 ' ' = '0' →
      (Process_GLS_Response st s).2.Slewing = false ∧
      (Process_GLS_Response st s).2.Tracking = false ∧
      (Process_GLS_Response st s).2.AtPark = st.AtPark) ∧
    (s.getD 18 ' ' = '1' →
      (Process_GLS_Response st s).2.Slewing = false ∧
      (Process_GLS_Response st s).2.Tracking = true ∧
      (Process_GLS_Response st s).2.AtPark = st.AtPark) ∧
    (s.getD 18 ' ' = '2' →
      (Process_GLS_Response st s).2.Slewing = true ∧
      (Process_GLS_Response st s).2.Tracking = false ∧
      (Process_GLS_Response st s).2.AtPark = st.AtPark) ∧
    (s.getD 18 ' ' = '3' →
      (Process_GLS_Response st s).2.Slewing = false ∧
      (Process_GLS_Response st s).2.Tracking = true ∧
      (Process_GLS_Response st s).2.AtPark = st.AtPark) ∧
    (s.getD 18 ' ' = '4' →
      (Process_GLS_Response st s).2.Slewing = true ∧
      (Process_GLS_Response st s).2.Tracking = false ∧
      (Process_GLS_Response st s).2.AtPark = st.AtPark) ∧
    (s.getD 18 ' ' = '5' →
      (Process_GLS_Response st s).2.Slewing = false ∧
      (Process_GLS_Response st s).2.Tracking = true ∧
      (Process_GLS_Response st s).2.AtPark = st.AtPark) ∧
    (s.getD 18 ' ' = '6' →
      (Process_GLS_Response st s).2.Slewing = false ∧
      (Process_GLS_Response st s).2.Tracking = false ∧
      (Process_GLS_Response st s).2.AtPark = true) ∧
    (s.getD 18 ' ' = '7' →
      (Process_GLS_Response st s).2.Slewing = false ∧
      (Process_GLS_Response st s).2.Tracking = false ∧
      (Process_GLS_Response st s).2.AtPark = st.AtPark) ∧
    (s.getD 18 ' ' ∉ (['0', '1', '2', '3', '4', '5', '6', '7'] : List Char) →
      (Process_GLS_Response st s).2.Slewing = st.Slewing ∧
      (Process_GLS_Response st s).2.Tracking = st.Tracking ∧
      (Process_GLS_Response st s).2.AtPark = st.AtPark) := by
  have hv : CheckForValidResponse s = true :=
    (checkValid_true_iff s).mpr ⟨by omega, hterm⟩
  have htriple := gls_flag_triple st s hv hlen
  refine ⟨by simp [gls_result st s hv hlen], ?_, ?_, ?_, ?_, ?_, ?_, ?_, ?_, ?_⟩
  · intro hc
    rw [hc] at htriple
    norm_num [show (('0' : Char).toNat : ℤ) = 48 by decide] at htriple
    simpa using htriple
  · intro hc
    rw [hc] at htriple
    norm_num [show (('1' : Char).toNat : ℤ) = 49 by decide] at htriple
    simpa using htriple
  · intro hc
    rw [hc] at htriple
    norm_num [show (('2' : Char).toNat : ℤ) = 50 by decide] at htriple
    simpa using htriple
  · intro hc
    rw [hc] at htriple
    norm_num [show (('3' : Char).toNat : ℤ) = 51 by decide] at htriple
    simpa using htriple
  · intro hc
    rw [hc] at htriple
    norm_num [show (('4' : Char).toNat : ℤ) = 52 by decide] at htriple
    simpa using htriple
  · intro hc
    rw [hc] at htriple
    norm_num [show (('5' : Char).toNat : ℤ) = 53 by decide] at htriple
    simpa using htriple
  · intro hc
    rw [hc] at htriple
    norm_num [show (('6' : Char).toNat : ℤ) = 54 by decide] at htriple
    simpa using htriple
  · intro hc
    rw [hc] at htriple
    norm_num [show (('7' : Char).toNat : ℤ) = 55 by decide] at htriple
    simpa using htriple
  · intro hc
    simp only [List.mem_cons, List.not_mem_nil, or_false, not_or] at hc
    obtain ⟨h0, h1, h2, h3, h4, h5, h6, h7⟩ := hc
    have hne : ∀ d : Char, s.getD 18 ' ' ≠ d →
        ¬(((s.getD 18 ' ').toNat : ℤ) - 48 = ((d.toNat : ℤ) - 48)) :=
      fun d hd he => hd (char_toNat_inj (by omega))
    have k0 := hne '0' h0
    have k1 := hne '1' h1
    have k2 := hne '2' h2
    have k3 := hne '3' h3
    have k4 := hne '4' h4
    have k5 := hne '5' h5
    have k6 := hne '6' h6
    have k7 := hne '7' h7
    norm_num [show (('0' : Char).toNat : ℤ) = 48 by decide,
      show (('1' : Char).toNat : ℤ) = 49 by decide,
      show (('2' : Char).toNat : ℤ) = 50 by decide,
      show (('3' : Char).toNat : ℤ) = 51 by decide,
      show (('4' : Char).toNat : ℤ) = 52 by decide,
      show (('5' : Char).toNat : ℤ) = 53 by decide,
      show (('6' : Char).toNat : ℤ) = 54 by decide,
      show (('7' : Char).toNat : ℤ) = 55 by decide]
      at k0 k1 k2 k3 k4 k5 k6 k7
    rw [← List.getD_eq_getElem?_getD] at k0 k1 k2 k3 k4 k5 k6 k7
    rw [if_neg k0, if_neg k1, if_neg k2, if_neg k3, if_neg k4, if_neg k5,
      if_neg k6, if_neg k7] at htriple
    simpa using htriple

/-- Witness for C2: a concrete 23-byte status frame whose offset-18 digit is
6 parks the mount and clears both motion flags. -/
theorem gls_status_flags_table_witness :
    (Process_GLS_Response openState ("0000000000000000006300#".toList)).2.Slewing
        = false ∧
      (Process_GLS_Response openState ("0000000000000000006300#".toList)).2.AtPark
        = true := by
  have h := gls_status_flags_table openState ("0000000000000000006300#".toList)
    (by decide) (by decide)
  have h6 := h.2.2.2.2.2.2.2.1 (by decide)
  exact ⟨h6.1, h6.2.2⟩

/-- The declination store keeps the value exactly when in range. -/
lemma gepUpdateDec_dec (st : TelescopeState) (d : ℚ) :
    (gepUpdateDec st d).Declination =
      (if -90 ≤ d ∧ d ≤ 90 then d else st.Declination) := by
  unfold gepUpdateDec
  split <;> simp

/-- The declination store does not touch the right ascension. -/
lemma gepUpdateDec_ra (st : TelescopeState) (d : ℚ) :
    (gepUpdateDec st d).RightAscension = st.RightAscension := by
  unfold gepUpdateDec
  split <;> simp

/-- The right-ascension store keeps the value exactly when in range. -/
lemma gepUpdateRA_ra (st : TelescopeState) (r : ℚ) :
    (gepUpdateRA st r).RightAscension =
      (if 0 ≤ r ∧ r < 24 then r else st.RightAscension) := by
  unfold gepUpdateRA
  split <;> simp

/-- The right-ascension store does not touch the declination. -/
lemma gepUpdateRA_dec (st : TelescopeState) (r : ℚ) :
    (gepUpdateRA st r).Declination = st.Declination := by
  unfold gepUpdateRA
  split <;> simp

/-- The raw-string store of the GEP decoder does not touch the
coordinates. -/
lemma gepStoreString_coords (st : TelescopeState) (s : List Char) :
    (gepStoreString st s).Declination = st.Declination ∧
      (gepStoreString st s).RightAscension = st.RightAscension := by
  unfold gepStoreString
  split <;> simp

/-- Reduction of the GEP processor on a valid frame of length at least
20. -/
lemma gep_result (st : TelescopeState) (s : List Char)
    (hv : CheckForValidResponse s = true) (h20 : 20 ≤ s.length) :
    Process_GEP_Response st s =
      (true, gepStoreString
        (gepUpdateRA
          (gepUpdateDec st
            (((atoiM ((s.drop 1).take 8) *
              (if s.getD 0 ' ' = '-' then -1 else 1) : ℤ) : ℚ) / (3600 * 100)))
          (((atoiM ((s.drop 9).take 9) : ℤ) : ℚ) / (15 * 3600 * 100)))
        s) := by
  unfold Process_GEP_Response
  rw [if_pos hv, if_pos h20]

/-- Claim C1: on a terminated frame of length at least 20 whose byte 0 is a
sign and whose bytes 1 through 17 are decimal digits, the GEP decoder
computes `dec = sign * digits8 / 360000` and `ra = digits9 / 5400000`, stores
the declination only when inside `[-90, 90]` and the right ascension only
when inside `[0, 24)`, and retains the previous stored value (no clamping)
otherwise. -/
theorem gep_position_decode (st : TelescopeState) (s : List Char)
    (hlen : 20 ≤ s.length) (hterm : s.getD (s.length - 1) ' ' = '#')
    (hsign : s.getD 0 ' ' = '+' ∨ s.getD 0 ' ' = '-')
    (hdigits : ∀ c ∈ (s.drop 1).take 17, c.isDigit = true) :
    (Process_GEP_Response st s).1 = true ∧
    (Process_GEP_Response st s).2.Declination =
      (if -90 ≤ (((if s.getD 0 ' ' = '-' then -1 else 1) *
              (digitsToNat ((s.drop 1).take 8) : ℤ) : ℤ) : ℚ) / 360000 ∧
          (((if s.getD 0 ' ' = '-' then -1 else 1) *
              (digitsToNat ((s.drop 1).take 8) : ℤ) : ℤ) : ℚ) / 360000 ≤ 90
        then (((if s.getD 0 ' ' = '-' then -1 else 1) *
              (digitsToNat ((s.drop 1).take 8) : ℤ) : ℤ) : ℚ) / 360000
        else st.Declination) ∧
    (Process_GEP_Response st s).2.RightAscension =
      (if 0 ≤ ((digitsToNat ((s.drop 9).take 9) : ℤ) : ℚ) / 5400000 ∧
          ((digitsToNat ((s.drop 9).take 9) : ℤ) : ℚ) / 5400000 < 24
        then ((digitsToNat ((s.drop 9).take 9) : ℤ) : ℚ) / 5400000
        else st.RightAscension) := by
  have hv : CheckForValidResponse s = true :=
    (checkValid_true_iff s).mpr ⟨by omega, hterm⟩
  have h88 : (s.drop 1).take 8 = ((s.drop 1).take 17).take 8 := by
    rw [List.take_take]
    norm_num
  have h99 : (s.drop 9).take 9 = ((s.drop 1).take 17).drop 8 := by
    rw [List.drop_take, List.drop_drop]
  have hd8 : ∀ c ∈ (s.drop 1).take 8, c.isDigit = true := by
    intro c hc
    rw [h88] at hc
    exact hdigits c (List.take_subset 8 _ hc)
  have hd9 : ∀ c ∈ (s.drop 9).take 9, c.isDigit = true := by
    intro c hc
    rw [h99] at hc
    exact hdigits c (List.drop_subset 8 _ hc)
  have ha8 := atoiM_all_digits hd8
  have ha9 := atoiM_all_digits hd9
  have hDec : ((atoiM ((s.drop 1).take 8) *
        (if s.getD 0 ' ' = '-' then -1 else 1) : ℤ) : ℚ) / (3600 * 100) =
      (((if s.getD 0 ' ' = '-' then -1 else 1) *
        (digitsToNat ((s.drop 1).take 8) : ℤ) : ℤ) : ℚ) / 360000 := by
    rw [ha8]
    push_cast
    rw [mul_comm]
    norm_num
  have hRA : ((atoiM ((s.drop 9).take 9) : ℤ) : ℚ) / (15 * 3600 * 100) =
      ((digitsToNat ((s.drop 9).take 9) : ℤ) : ℚ) / 5400000 := by
    rw [ha9]
    norm_num
  rw [gep_result st s hv hlen]
  refine ⟨rfl, ?_, ?_⟩
  · show (gepStoreString _ _).Declination = _
    rw [(gepStoreString_coords _ _).1, gepUpdateRA_dec, gepUpdateDec_dec, hDec]
  · show (gepStoreString _ _).RightAscension = _
    rw [(gepStoreString_coords _ _).2, gepUpdateRA_ra, gepUpdateDec_ra, hRA]

/-- Witness for C1: the concrete frame `-11970000067500000001#` decodes to
declination -33.25 degrees and right ascension 12.5 hours. -/
theorem gep_position_decode_witness :
    (Process_GEP_Response openState ("-11970000067500000001#".toList)).2.Declination
        = -133 / 4 ∧
      (Process_GEP_Response openState
          ("-11970000067500000001#".toList)).2.RightAscension = 25 / 2 := by
  have h := gep_position_decode openState ("-11970000067500000001#".toList)
    (by decide) (by decide) (by decide) (by decide)
  have e1 : digitsToNat (("-11970000067500000001#".toList.drop 1).take 8)
      = 11970000 := by decide
  have e2 : digitsToNat (("-11970000067500000001#".toList.drop 9).take 9)
      = 67500000 := by decide
  have e3 : "-11970000067500000001#".toList.getD 0 ' ' = '-' := by decide
  refine ⟨?_, ?_⟩
  · rw [h.2.1, e1, e3]
    norm_num
  · rw [h.2.2, e2]
    norm_num

/-- An invalid reply makes the GEP processor report failure and change
nothing. -/
lemma gep_invalid (st : TelescopeState) {s : List Char}
    (hv : CheckForValidResponse s = false) :
    Process_GEP_Response st s = (false, st) := by
  simp [Process_GEP_Response, hv]

/-- The GLS processor never touches the coordinates, the error counter or
the info-valid flag. -/
lemma gls_preserves (st : TelescopeState) (s : List Char) :
    (Process_GLS_Response st s).2.RightAscension = st.RightAscension ∧
    (Process_GLS_Response st s).2.Declination = st.Declination ∧
    (Process_GLS_Response st s).2.cIOptron_CommErrCnt = st.cIOptron_CommErrCnt ∧
    (Process_GLS_Response st s).2.cTelescopeInfoValid = st.cTelescopeInfoValid := by
  by_cases hv : CheckForValidResponse s = true
  · by_cases h23 : 23 ≤ s.length
    · rw [gls_result st s hv h23]
      obtain ⟨-, -, -, s4, s5, s6, s7⟩ := glsStoreString_fields st s
      obtain ⟨a1, a2, a3, a4⟩ := glsApplySystemStatus_fields (glsStoreString st s)
        (((s.getD 18 ' ').toNat : ℤ) - 48)
      obtain ⟨-, -, -, r4, r5, r6, r7⟩ := glsApplyTrackingRate_fields
        (glsApplySystemStatus (glsStoreString st s) (((s.getD 18 ' ').toNat : ℤ) - 48))
        (((s.getD 19 ' ').toNat : ℤ) - 48)
      exact ⟨by rw [show ((true, glsApplyTrackingRate _ _) :
          Bool × TelescopeState).2 = glsApplyTrackingRate _ _ from rfl, r4, a1, s4],
        by rw [show ((true, glsApplyTrackingRate _ _) :
          Bool × TelescopeState).2 = glsApplyTrackingRate _ _ from rfl, r5, a2, s5],
        by rw [show ((true, glsApplyTrackingRate _ _) :
          Bool × TelescopeState).2 = glsApplyTrackingRate _ _ from rfl, r6, a3, s6],
        by rw [show ((true, glsApplyTrackingRate _ _) :
          Bool × TelescopeState).2 = glsApplyTrackingRate _ _ from rfl, r7, a4, s7]⟩
    · have : Process_GLS_Response st s = (true, st) := by
        unfold Process_GLS_Response
        rw [if_pos hv, if_neg h23]
      simp [this]
  · have : Process_GLS_Response st s = (false, st) := by
      simp [Process_GLS_Response, Bool.of_not_eq_true hv]
    simp [this]

/-- Amended claim C6: on an open connection, a `:GEP#` poll cycle that gets
no reply bytes increments the communication-error counter but leaves the
info-valid flag (as well as the stored coordinates) unchanged, while a reply
that fails validation increments the counter, clears the info-valid flag and
likewise retains the stored coordinates.  (The original claim also demanded
the flag be cleared in the no-reply case; the code does not do that.) -/
theorem sendCmdsPeriodic_gep_failure (st : TelescopeState)
    (gep gls : Option (List Char)) (hopen : st.cTelescopeConnectionOpen = true) :
    (gep = none →
      (SendCmdsPeriodic st gep gls).2.cIOptron_CommErrCnt
          = st.cIOptron_CommErrCnt + 1 ∧
      (SendCmdsPeriodic st gep gls).2.cTelescopeInfoValid
          = st.cTelescopeInfoValid ∧
      (SendCmdsPeriodic st gep gls).2.RightAscension = st.RightAscension ∧
      (SendCmdsPeriodic st gep gls).2.Declination = st.Declination) ∧
    (∀ r, gep = some r → CheckForValidResponse r = false →
      (SendCmdsPeriodic st gep gls).2.cIOptron_CommErrCnt
          = st.cIOptron_CommErrCnt + 1 ∧
      (SendCmdsPeriodic st gep gls).2.cTelescopeInfoValid = false ∧
      (SendCmdsPeriodic st gep gls).2.RightAscension = st.RightAscension ∧
      (SendCmdsPeriodic st gep gls).2.Declination = st.Declination ∧
      (SendCmdsPeriodic st gep gls).1 = false) := by
  have hcond : ¬(st.cTelescopeConnectionOpen = false) := by simp [hopen]
  constructor
  · rintro rfl
    unfold SendCmdsPeriodic
    rw [if_neg hcond]
    cases gls with
    | none => simp
    | some r2 =>
      obtain ⟨g1, g2, g3, g4⟩ := gls_preserves
        ({ st with cIOptron_CommErrCnt := st.cIOptron_CommErrCnt + 1 }) r2
      simp [g1, g2, g3, g4]
  · rintro r rfl hr
    unfold SendCmdsPeriodic
    rw [if_neg hcond]
    have hgep : Process_GEP_Response st r = (false, st) := gep_invalid st hr
    cases gls with
    | none => simp [hgep]
    | some r2 =>
      obtain ⟨g1, g2, g3, g4⟩ := gls_preserves ({ st with cIOptron_CommErrCnt := st.cIOptron_CommErrCnt + 1, cTelescopeInfoValid := false }) r2
      simp [hgep, g1, g2, g3, g4]

/-- Witness for the amended C6 at a concrete invalid reply. -/
theorem sendCmdsPeriodic_gep_failure_witness :
    (SendCmdsPeriodic openState (some ("xyz".toList)) none).2.cTelescopeInfoValid
        = false ∧
      (SendCmdsPeriodic openState (some ("xyz".toList)) none).2.cIOptron_CommErrCnt
        = 1 := by
  have h := (sendCmdsPeriodic_gep_failure openState (some ("xyz".toList)) none
    rfl).2 ("xyz".toList) rfl (by decide)
  exact ⟨h.2.1, h.1⟩

/-- A state whose info-valid flag is set and which holds a known position,
as after a previous successful poll. -/
def knownGoodState : TelescopeState :=
  { openState with
      cTelescopeInfoValid := true
      RightAscension := 5
      Declination := 10 }

/-- Counterexample to claim C6 as stated: with the info-valid flag
previously true, a poll cycle on an open connection whose position query
yields no reply bytes increments the error counter but leaves the flag true;
the claim demanded it become false.  (Coordinates are retained, as both the
claim and the code agree.) -/
theorem sendCmdsPeriodic_no_reply_keeps_info_valid :
    (SendCmdsPeriodic knownGoodState none none).2.cTelescopeInfoValid = true ∧
    (SendCmdsPeriodic knownGoodState none none).2.cIOptron_CommErrCnt = 1 ∧
    (SendCmdsPeriodic knownGoodState none none).2.RightAscension = 5 ∧
    (SendCmdsPeriodic knownGoodState none none).2.Declination = 10 := by
  refine ⟨?_, ?_, ?_, ?_⟩ <;> rfl

/-- The clamped RA wire value is always inside the wire range. -/
lemma raFieldValue_bounds (ra : ℚ) :
    0 ≤ raFieldValue ra ∧ raFieldValue ra ≤ 129600000 := by
  unfold raFieldValue
  dsimp only
  split_ifs <;> omega

/-- The clamped declination wire value is always inside the wire range. -/
lemma decFieldValue_bounds (dec : ℚ) :
    -32400000 ≤ decFieldValue dec ∧ decFieldValue dec ≤ 32400000 := by
  unfold decFieldValue
  dsimp only
  split_ifs <;> omega

/-- How the RA wire value clamps: identity in range, boundary outside. -/
lemma raFieldValue_clamp (ra : ℚ) :
    (0 ≤ truncC (ra * 15 * 3600 * 100) →
      truncC (ra * 15 * 3600 * 100) ≤ 129600000 →
      raFieldValue ra = truncC (ra * 15 * 3600 * 100)) ∧
    (truncC (ra * 15 * 3600 * 100) < 0 → raFieldValue ra = 0) ∧
    (129600000 < truncC (ra * 15 * 3600 * 100) →
      raFieldValue ra = 129600000) := by
  unfold raFieldValue
  dsimp only
  refine ⟨?_, ?_, ?_⟩ <;> intros <;> split_ifs <;> omega

/-- How the declination wire value clamps: identity in range, boundary
outside. -/
lemma decFieldValue_clamp (dec : ℚ) :
    (-32400000 ≤ truncC (dec * 3600 * 100) →
      truncC (dec * 3600 * 100) ≤ 32400000 →
      decFieldValue dec = truncC (dec * 3600 * 100)) ∧
    (truncC (dec * 3600 * 100) < -32400000 → decFieldValue dec = -32400000) ∧
    (32400000 < truncC (dec * 3600 * 100) → decFieldValue dec = 32400000) := by
  unfold decFieldValue
  dsimp only
  refine ⟨?_, ?_, ?_⟩ <;> intros <;> split_ifs <;> omega

/-- The declination command written with the absolute value of the wire
field. -/
lemma decCommand_natAbs (dec : ℚ) :
    decCommand dec =
      (if 0 ≤ decFieldValue dec then ":Sds+".toList else ":Sds-".toList)
        ++ fmtDigits 8 (decFieldValue dec).natAbs ++ ['#'] := by
  unfold decCommand
  split_ifs with h
  · have : (decFieldValue dec).toNat = (decFieldValue dec).natAbs := by omega
    rw [this]
  · have : (-decFieldValue dec).toNat = (decFieldValue dec).natAbs := by omega
    rw [this]

/-- Claim C7: on a connected, open link, both the slew and the sync intent
calls succeed for every pair of target coordinates and enqueue, in order,
the RA command `:SRA` + 9 zero-padded digits + `#` carrying the truncated
0.01-arc-second RA value clamped into `[0, 129600000]`, the declination
command `:Sds` + sign + 8 zero-padded digits + `#` carrying the truncated
0.01-arc-second declination value clamped into `[-32400000, 32400000]`, and
the trailing `:MS1#` (slew) or `:CM#` (sync); out-of-range inputs are
clamped to the boundary, never rejected. -/
theorem slew_sync_command_encoding (st : TelescopeState) (ra dec : ℚ)
    (hc : st.cConnected = true) (ho : st.cTelescopeConnectionOpen = true) :
    (Telescope_SlewToRA_DEC st ra dec).1 = .Success ∧
    (Telescope_SyncToRA_DEC st ra dec).1 = .Success ∧
    (Telescope_SlewToRA_DEC st ra dec).2.cCmdQueue
        = st.cCmdQueue ++ [raCommand ra, decCommand dec, ":MS1#".toList] ∧
    (Telescope_SyncToRA_DEC st ra dec).2.cCmdQueue
        = st.cCmdQueue ++ [raCommand ra, decCommand dec, ":CM#".toList] ∧
    raCommand ra = ":SRA".toList ++ fmtDigits 9 (raFieldValue ra).toNat ++ ['#'] ∧
    (fmtDigits 9 (raFieldValue ra).toNat).length = 9 ∧
    (∀ c ∈ fmtDigits 9 (raFieldValue ra).toNat, c.isDigit = true) ∧
    (digitsToNat (fmtDigits 9 (raFieldValue ra).toNat) : ℤ) = raFieldValue ra ∧
    0 ≤ raFieldValue ra ∧ raFieldValue ra ≤ 129600000 ∧
    (0 ≤ truncC (ra * 15 * 3600 * 100) →
      truncC (ra * 15 * 3600 * 100) ≤ 129600000 →
      raFieldValue ra = truncC (ra * 15 * 3600 * 100)) ∧
    (truncC (ra * 15 * 3600 * 100) < 0 → raFieldValue ra = 0) ∧
    (129600000 < truncC (ra * 15 * 3600 * 100) →
      raFieldValue ra = 129600000) ∧
    decCommand dec =
      (if 0 ≤ decFieldValue dec then ":Sds+".toList else ":Sds-".toList)
        ++ fmtDigits 8 (decFieldValue dec).natAbs ++ ['#'] ∧
    (fmtDigits 8 (decFieldValue dec).natAbs).length = 8 ∧
    (∀ c ∈ fmtDigits 8 (decFieldValue dec).natAbs, c.isDigit = true) ∧
    (digitsToNat (fmtDigits 8 (decFieldValue dec).natAbs) : ℤ)
        = (decFieldValue dec).natAbs ∧
    -32400000 ≤ decFieldValue dec ∧ decFieldValue dec ≤ 32400000 ∧
    (-32400000 ≤ truncC (dec * 3600 * 100) →
      truncC (dec * 3600 * 100) ≤ 32400000 →
      decFieldValue dec = truncC (dec * 3600 * 100)) ∧
    (truncC (dec * 3600 * 100) < -32400000 →
      decFieldValue dec = -32400000) ∧
    (32400000 < truncC (dec * 3600 * 100) → decFieldValue dec = 32400000) := by
  have hc' : ¬(st.cConnected = false) := by simp [hc]
  have ho' : ¬(st.cTelescopeConnectionOpen = false) := by simp [ho]
  have hra := raFieldValue_bounds ra
  have hdec := decFieldValue_bounds dec
  have hra9 : (raFieldValue ra).toNat < 10 ^ 9 := by omega
  have hdec8 : (decFieldValue dec).natAbs < 10 ^ 8 := by omega
  refine ⟨?_, ?_, ?_, ?_, rfl, fmtDigits_length _ _, fmtDigits_digits _ _, ?_,
    hra.1, hra.2, (raFieldValue_clamp ra).1, (raFieldValue_clamp ra).2.1,
    (raFieldValue_clamp ra).2.2, decCommand_natAbs dec, fmtDigits_length _ _,
    fmtDigits_digits _ _, ?_, hdec.1, hdec.2, (decFieldValue_clamp dec).1,
    (decFieldValue_clamp dec).2.1, (decFieldValue_clamp dec).2.2⟩
  · unfold Telescope_SlewToRA_DEC
    rw [if_neg hc', if_neg ho']
  · unfold Telescope_SyncToRA_DEC
    rw [if_neg hc', if_neg ho']
  · unfold Telescope_SlewToRA_DEC
    rw [if_neg hc', if_neg ho']
    simp [AddCmdToQueue]
  · unfold Telescope_SyncToRA_DEC
    rw [if_neg hc', if_neg ho']
    simp [AddCmdToQueue]
  · rw [digitsToNat_fmtDigits_of_lt hra9]
    omega
  · rw [digitsToNat_fmtDigits_of_lt hdec8]

/-- Witness for C7 at concrete in-range coordinates on an open link. -/
theorem slew_sync_command_encoding_witness :
    (Telescope_SlewToRA_DEC openState 0 0).1 = .Success :=
  (slew_sync_command_encoding openState 0 0 rfl rfl).1

/-- Truncation toward zero of an integer value is that integer. -/
lemma truncC_intCast (z : ℤ) : truncC (z : ℚ) = z := by
  unfold truncC
  split_ifs <;> simp

/-- The RA wire value for the target 12.5 hours. -/
lemma raFieldValue_12_5 : raFieldValue (25 / 2 : ℚ) = 67500000 := by
  have htr : truncC ((25 / 2 : ℚ) * 15 * 3600 * 100) = 67500000 := by
    rw [show ((25 / 2 : ℚ) * 15 * 3600 * 100) = ((67500000 : ℤ) : ℚ) by norm_num,
      truncC_intCast]
  rw [(raFieldValue_clamp (25 / 2 : ℚ)).1 (by rw [htr]; omega) (by rw [htr]; omega),
    htr]

/-- The declination wire value for the target -33.25 degrees. -/
lemma decFieldValue_minus33_25 : decFieldValue (-133 / 4 : ℚ) = -11970000 := by
  have htr : truncC ((-133 / 4 : ℚ) * 3600 * 100) = -11970000 := by
    rw [show ((-133 / 4 : ℚ) * 3600 * 100) = ((-11970000 : ℤ) : ℚ) by norm_num,
      truncC_intCast]
  rw [(decFieldValue_clamp (-133 / 4 : ℚ)).1 (by rw [htr]; omega)
    (by rw [htr]; omega), htr]

/-- The RA set command for 12.5 hours, fully evaluated: note the leading
zero of the 9-digit zero-padded field. -/
lemma raCommand_12_5 : raCommand (25 / 2 : ℚ) = ":SRA067500000#".toList := by
  unfold raCommand
  rw [raFieldValue_12_5]
  decide

/-- The declination set command for -33.25 degrees, fully evaluated. -/
lemma decCommand_minus33_25 :
    decCommand (-133 / 4 : ℚ) = ":Sds-11970000#".toList := by
  rw [decCommand_natAbs, decFieldValue_minus33_25]
  decide

/-- The full command queue produced by a slew to RA 12.5 h, Dec -33.25 deg
from an open connection with an empty queue. -/
lemma slew_12_5_queue :
    (Telescope_SlewToRA_DEC openState (25 / 2) (-133 / 4)).2.cCmdQueue
      = [":SRA067500000#".toList, ":Sds-11970000#".toList, ":MS1#".toList] := by
  unfold Telescope_SlewToRA_DEC
  rw [if_neg (by decide), if_neg (by decide)]
  show (AddCmdToQueue (AddCmdToQueue (AddCmdToQueue openState _) _) _).cCmdQueue = _
  simp [AddCmdToQueue, raCommand_12_5, decCommand_minus33_25, openState,
    initialTelescopeState]

/-- Amended claim C8: encoding the target RA = 12.5 hours (written 25/2) and
Dec = -33.25 degrees (written -133/4) through the slew intent call enqueues
exactly `:SRA067500000#` (67,500,000 zero-padded to 9 digits) and
`:Sds-11970000#`, followed by `:MS1#`. -/
theorem slew_12_5_minus33_25_commands :
    (Telescope_SlewToRA_DEC openState (25 / 2) (-133 / 4)).1 = .Success ∧
    (Telescope_SlewToRA_DEC openState (25 / 2) (-133 / 4)).2.cCmdQueue
      = [":SRA067500000#".toList, ":Sds-11970000#".toList, ":MS1#".toList] := by
  refine ⟨?_, slew_12_5_queue⟩
  unfold Telescope_SlewToRA_DEC
  rw [if_neg (by decide), if_neg (by decide)]

/-- Counterexample to claim C8 as stated: the claim's RA command string
`:SRA675000000#` is never enqueued for RA = 12.5 hours - the code zero-pads
67,500,000 to nine digits, producing `:SRA067500000#`, a different string. -/
theorem slew_12_5_commands_not_unpadded :
    ":SRA675000000#".toList ∉
      (Telescope_SlewToRA_DEC openState (25 / 2) (-133 / 4)).2.cCmdQueue ∧
    (Telescope_SlewToRA_DEC openState (25 / 2) (-133 / 4)).2.cCmdQueue.getD 0 []
      = ":SRA067500000#".toList ∧
    (":SRA067500000#".toList ≠ ":SRA675000000#".toList) := by
  rw [slew_12_5_queue]
  refine ⟨by decide, by decide, by decide⟩

/-- Decode of a structured 21-byte position frame: sign byte, 8 declination
digits, 9 RA digits, two trailing status digits, terminator. -/
lemma gep_decode_21 (st : TelescopeState) (c : Char) (F8 F9 : List Char)
    (h8 : F8.length = 8) (h9 : F9.length = 9) :
    Process_GEP_Response st (c :: (F8 ++ (F9 ++ ['0', '0', '#']))) =
      (true, gepStoreString
        (gepUpdateRA
          (gepUpdateDec st
            (((atoiM F8 * (if c = '-' then -1 else 1) : ℤ) : ℚ) / (3600 * 100)))
          (((atoiM F9 : ℤ) : ℚ) / (15 * 3600 * 100)))
        (c :: (F8 ++ (F9 ++ ['0', '0', '#'])))) := by
  have hs : c :: (F8 ++ (F9 ++ ['0', '0', '#']))
      = (c :: (F8 ++ (F9 ++ ['0', '0']))) ++ ['#'] := by
    simp
  have hv : CheckForValidResponse (c :: (F8 ++ (F9 ++ ['0', '0', '#']))) = true := by
    rw [hs]
    exact checkValid_concat _
  have hlen : (c :: (F8 ++ (F9 ++ ['0', '0', '#']))).length = 21 := by
    simp [h8, h9]
  have hget0 : (c :: (F8 ++ (F9 ++ ['0', '0', '#']))).getD 0 ' ' = c := rfl
  have hdec : ((c :: (F8 ++ (F9 ++ ['0', '0', '#']))).drop 1).take 8 = F8 := by
    show (F8 ++ (F9 ++ ['0', '0', '#'])).take 8 = F8
    exact List.take_left' h8
  have hra : ((c :: (F8 ++ (F9 ++ ['0', '0', '#']))).drop 9).take 9 = F9 := by
    show ((F8 ++ (F9 ++ ['0', '0', '#'])).drop 8).take 9 = F9
    rw [List.drop_left' h8]
    exact List.take_left' h9
  rw [gep_result st _ hv (by omega), hget0, hdec, hra]

/-- Counterexample to claim C5 as stated: the frame of the spec's round-trip
property - sign, 8 declination digits, 9 RA digits, terminator - is only 19
characters, one short of the GEP decoder's required 20, so decoding
`encode(0, 0)` leaves the state untouched and returns the previous
coordinates (5, 10), not the encoded pair (0, 0). -/
theorem spec_roundtrip_19char_frame_rejected :
    (specPositionFrame 0 0).length = 19 ∧
    (Process_GEP_Response knownGoodState (specPositionFrame 0 0)).2
        = knownGoodState ∧
    knownGoodState.RightAscension ≠ 0 ∧
    knownGoodState.Declination ≠ 0 := by
  have hd0 : decFieldValue 0 = 0 := by
    have htr : truncC ((0 : ℚ) * 3600 * 100) = 0 := by
      rw [show ((0 : ℚ) * 3600 * 100) = ((0 : ℤ) : ℚ) by norm_num, truncC_intCast]
    rw [(decFieldValue_clamp 0).1 (by rw [htr]; omega) (by rw [htr]; omega), htr]
  have hr0 : raFieldValue 0 = 0 := by
    have htr : truncC ((0 : ℚ) * 15 * 3600 * 100) = 0 := by
      rw [show ((0 : ℚ) * 15 * 3600 * 100) = ((0 : ℤ) : ℚ) by norm_num,
        truncC_intCast]
    rw [(raFieldValue_clamp 0).1 (by rw [htr]) (by rw [htr]; omega), htr]
  have hlen : (specPositionFrame 0 0).length = 19 := by
    unfold specPositionFrame specPositionFields
    rw [hd0, hr0]
    simp [fmtDigits_length]
  refine ⟨hlen, gep_short_state knownGoodState (by omega), ?_, ?_⟩
  · show (5 : ℚ) ≠ 0
    norm_num
  · show (10 : ℚ) ≠ 0
    norm_num

/-- Amended claim C5: append the two trailing status digits that a real
`:GEP#` reply carries (so the frame meets the decoder's 20-character
minimum) and the encode/decode round trip is exact: for every declination
and right ascension that are exact multiples of 0.01 arc-second inside
`[-90, 90]` degrees and `[0, 24)` hours, decoding the 21-character frame
built from the slew/sync encoder's wire fields stores back exactly the
original pair. -/
theorem position_roundtrip_with_status_digits (st : TelescopeState)
    (dInt rInt : ℤ) (hd1 : -32400000 ≤ dInt) (hd2 : dInt ≤ 32400000)
    (hr1 : 0 ≤ rInt) (hr2 : rInt < 129600000) :
    (Process_GEP_Response st
        (specPositionFrame21 ((dInt : ℚ) / 360000) ((rInt : ℚ) / 5400000))).1
      = true ∧
    (Process_GEP_Response st
        (specPositionFrame21 ((dInt : ℚ) / 360000) ((rInt : ℚ) / 5400000))).2.Declination
      = (dInt : ℚ) / 360000 ∧
    (Process_GEP_Response st
        (specPositionFrame21 ((dInt : ℚ) / 360000) ((rInt : ℚ) / 5400000))).2.RightAscension
      = (rInt : ℚ) / 5400000 := by
  have hdval : decFieldValue ((dInt : ℚ) / 360000) = dInt := by
    have harith : ((dInt : ℚ) / 360000) * 3600 * 100 = ((dInt : ℤ) : ℚ) := by
      field_simp
      ring
    have htr : truncC (((dInt : ℚ) / 360000) * 3600 * 100) = dInt := by
      rw [harith, truncC_intCast]
    rw [(decFieldValue_clamp _).1 (by rw [htr]; omega) (by rw [htr]; omega), htr]
  have hrval : raFieldValue ((rInt : ℚ) / 5400000) = rInt := by
    have harith : ((rInt : ℚ) / 5400000) * 15 * 3600 * 100 = ((rInt : ℤ) : ℚ) := by
      field_simp
      ring
    have htr : truncC (((rInt : ℚ) / 5400000) * 15 * 3600 * 100) = rInt := by
      rw [harith, truncC_intCast]
    rw [(raFieldValue_clamp _).1 (by rw [htr]; omega) (by rw [htr]; omega), htr]
  have h8 : (fmtDigits 8 dInt.natAbs).length = 8 := fmtDigits_length _ _
  have h9 : (fmtDigits 9 rInt.toNat).length = 9 := fmtDigits_length _ _
  have ha8 : atoiM (fmtDigits 8 dInt.natAbs) = (dInt.natAbs : ℤ) := by
    rw [atoiM_all_digits (fmtDigits_digits _ _),
      digitsToNat_fmtDigits_of_lt (by omega : dInt.natAbs < 10 ^ 8)]
  have ha9 : atoiM (fmtDigits 9 rInt.toNat) = (rInt.toNat : ℤ) := by
    rw [atoiM_all_digits (fmtDigits_digits _ _),
      digitsToNat_fmtDigits_of_lt (by omega : rInt.toNat < 10 ^ 9)]
  have hd1Q : (-32400000 : ℚ) ≤ (dInt : ℚ) := by exact_mod_cast hd1
  have hd2Q : (dInt : ℚ) ≤ 32400000 := by exact_mod_cast hd2
  have hr2Q : (rInt : ℚ) < 129600000 := by exact_mod_cast hr2
  have hdcond : -90 ≤ (dInt : ℚ) / 360000 ∧ (dInt : ℚ) / 360000 ≤ 90 := by
    constructor
    · rw [le_div_iff (by norm_num : (0 : ℚ) < 360000)]
      linarith
    · rw [div_le_iff (by norm_num : (0 : ℚ) < 360000)]
      linarith
  have hrcond : 0 ≤ (rInt : ℚ) / 5400000 ∧ (rInt : ℚ) / 5400000 < 24 := by
    constructor
    · positivity
    · rw [div_lt_iff (by norm_num : (0 : ℚ) < 5400000)]
      linarith
  rcases le_or_lt 0 dInt with hsgn | hsgn
  · have hframe : specPositionFrame21 ((dInt : ℚ) / 360000) ((rInt : ℚ) / 5400000)
        = '+' :: (fmtDigits 8 dInt.natAbs
            ++ (fmtDigits 9 rInt.toNat ++ ['0', '0', '#'])) := by
      unfold specPositionFrame21 specPositionFields
      rw [hdval, hrval, if_pos hsgn]
      simp
    have hdecval : ((atoiM (fmtDigits 8 dInt.natAbs) *
        (if ('+' : Char) = '-' then -1 else 1) : ℤ) : ℚ) / (3600 * 100)
        = (dInt : ℚ) / 360000 := by
      rw [ha8, if_neg (by decide)]
      have : ((dInt.natAbs : ℤ) * 1) = dInt := by omega
      rw [this]
      norm_num
    have hraval : ((atoiM (fmtDigits 9 rInt.toNat) : ℤ) : ℚ) / (15 * 3600 * 100)
        = (rInt : ℚ) / 5400000 := by
      rw [ha9]
      have : ((rInt.toNat : ℤ)) = rInt := by omega
      rw [this]
      norm_num
    rw [hframe, gep_decode_21 st '+' _ _ h8 h9, hdecval, hraval]
    refine ⟨rfl, ?_, ?_⟩
    · show (gepStoreString _ _).Declination = _
      rw [(gepStoreString_coords _ _).1, gepUpdateRA_dec, gepUpdateDec_dec,
        if_pos hdcond]
    · show (gepStoreString _ _).RightAscension = _
      rw [(gepStoreString_coords _ _).2, gepUpdateRA_ra, if_pos hrcond]
  · have hframe : specPositionFrame21 ((dInt : ℚ) / 360000) ((rInt : ℚ) / 5400000)
        = '-' :: (fmtDigits 8 dInt.natAbs
            ++ (fmtDigits 9 rInt.toNat ++ ['0', '0', '#'])) := by
      unfold specPositionFrame21 specPositionFields
      rw [hdval, hrval, if_neg (by omega)]
      simp
    have hdecval : ((atoiM (fmtDigits 8 dInt.natAbs) *
        (if ('-' : Char) = '-' then -1 else 1) : ℤ) : ℚ) / (3600 * 100)
        = (dInt : ℚ) / 360000 := by
      rw [ha8, if_pos rfl]
      have : ((dInt.natAbs : ℤ) * (-1)) = dInt := by omega
      rw [this]
      norm_num
    have hraval : ((atoiM (fmtDigits 9 rInt.toNat) : ℤ) : ℚ) / (15 * 3600 * 100)
        = (rInt : ℚ) / 5400000 := by
      rw [ha9]
      have : ((rInt.toNat : ℤ)) = rInt := by omega
      rw [this]
      norm_num
    rw [hframe, gep_decode_21 st '-' _ _ h8 h9, hdecval, hraval]
    refine ⟨rfl, ?_, ?_⟩
    · show (gepStoreString _ _).Declination = _
      rw [(gepStoreString_coords _ _).1, gepUpdateRA_dec, gepUpdateDec_dec,
        if_pos hdcond]
    · show (gepStoreString _ _).RightAscension = _
      rw [(gepStoreString_coords _ _).2, gepUpdateRA_ra, if_pos hrcond]

/-- Witness for the amended C5 at declination -33.25 degrees and right
ascension 12.5 hours (wire values -11970000 and 67500000). -/
theorem position_roundtrip_with_status_digits_witness :
    (Process_GEP_Response openState
        (specPositionFrame21 ((-11970000 : ℤ) / 360000)
          ((67500000 : ℤ) / 5400000))).2.Declination
      = ((-11970000 : ℤ) : ℚ) / 360000 :=
  (position_roundtrip_with_status_digits openState (-11970000) 67500000
    (by omega) (by omega) (by omega) (by omega)).2.1

/-- Seconds block when a colon follows the minute digits. -/
lemma parseRA_sec_colon (rest2 : List Char) :
    parseRA_sec (':' :: rest2) = atoiM rest2 := rfl

/-- Seconds block when the terminator follows the minute digits. -/
lemma parseRA_sec_hash (tail : List Char) : parseRA_sec ('#' :: tail) = 0 := rfl

/-- Minutes block when a colon follows the hour digits. -/
lemma parseRA_minsec_colon (rest : List Char) :
    parseRA_minsec (':' :: rest)
      = (atoiM rest, parseRA_sec (rest.dropWhile Char.isDigit)) := rfl

/-- Minutes block when the terminator follows the hour digits. -/
lemma parseRA_minsec_hash (tail : List Char) :
    parseRA_minsec ('#' :: tail) = (0, 0) := rfl

/-- Counterexample to claim C9 as stated: on the sign-led frame
`+25:30:00#` the code's parser returns 1.0 (C `atoi` reads the signed hour
value 25, but the digit-skipping loop never moves past the `+`, so minutes
and seconds stay 0 and 25 is wrapped to 1), while the claim's reading -
leading digit run as hours (empty, 0), digits after the first colon as
minutes (30) - gives 0.5.  The claim's description is wrong for every
string `atoi` does not start reading at a digit. -/
theorem parseRA_sign_prefix_divergence :
    iOptron_ParseRA ("+25:30:00#".toList) = 1 ∧
      specParseRA ("+25:30:00#".toList) = 1 / 2 ∧
      iOptron_ParseRA ("+25:30:00#".toList)
        ≠ specParseRA ("+25:30:00#".toList) := by
  have h1 : iOptron_ParseRA ("+25:30:00#".toList) = 1 := by
    unfold iOptron_ParseRA
    rw [if_pos (by decide : CheckForValidResponse ("+25:30:00#".toList) = true)]
    dsimp only
    rw [show atoiM ("+25:30:00#".toList) = 25 from by decide,
      show parseRA_minsec (("+25:30:00#".toList).dropWhile Char.isDigit) = (0, 0)
        from by decide]
    rw [norm24_eq]
    norm_num
  have h2 : specParseRA ("+25:30:00#".toList) = 1 / 2 := by
    unfold specParseRA
    rw [show specRA_hours ("+25:30:00#".toList) = 0 from by decide,
      show specRA_minutes ("+25:30:00#".toList) = 30 from by decide,
      show specRA_seconds ("+25:30:00#".toList) = 0 from by decide]
    rw [norm24_eq]
    norm_num
  refine ⟨h1, h2, ?_⟩
  rw [h1, h2]
  norm_num

/-- Amended claim C9: for terminated strings of the plain sexagesimal
shapes - a digit run, optionally followed by a colon and a digit run of
minutes, optionally followed by another colon and a digit run of seconds,
each run's value below `2 ^ 31` so the source's `atoi` into a C `int` does
not overflow - the RA parser returns `hours + minutes/60 + seconds/3600`
normalized into `[0,24)` by the repeated 24-hour adjustment (whose result
always lies in `[0,24)`), and a computed raw value of 25.5 (frame
`25:30:00#`) yields 1.5.  (As stated, over every terminated string, the
claim fails: `atoi` whitespace-and-sign handling diverges from the
leading-digit-run reading, see the counterexample; and digit runs of ten
or more digits overflow the C `int`.) -/
theorem parseRA_sexagesimal_shapes :
    (∀ A : List Char, (∀ c ∈ A, c.isDigit = true) → digitsToNat A < 2 ^ 31 →
      iOptron_ParseRA (A ++ ['#']) = norm24 ((digitsToNat A : ℚ))) ∧
    (∀ A B : List Char, (∀ c ∈ A, c.isDigit = true) →
      (∀ c ∈ B, c.isDigit = true) → digitsToNat A < 2 ^ 31 →
      digitsToNat B < 2 ^ 31 →
      iOptron_ParseRA (A ++ ':' :: (B ++ ['#']))
        = norm24 ((digitsToNat A : ℚ) + (digitsToNat B : ℚ) / 60)) ∧
    (∀ A B C : List Char, (∀ c ∈ A, c.isDigit = true) →
      (∀ c ∈ B, c.isDigit = true) → (∀ c ∈ C, c.isDigit = true) →
      digitsToNat A < 2 ^ 31 → digitsToNat B < 2 ^ 31 →
      digitsToNat C < 2 ^ 31 →
      iOptron_ParseRA (A ++ ':' :: (B ++ ':' :: (C ++ ['#'])))
        = norm24 ((digitsToNat A : ℚ) + (digitsToNat B : ℚ) / 60
            + (digitsToNat C : ℚ) / 3600)) ∧
    (∀ q : ℚ, 0 ≤ norm24 q ∧ norm24 q < 24) ∧
    iOptron_ParseRA ("25:30:00#".toList) = 3 / 2 := by
  have hsh : ∀ A : List Char, (∀ c ∈ A, c.isDigit = true) →
      iOptron_ParseRA (A ++ ['#']) = norm24 ((digitsToNat A : ℚ)) := by
    intro A hA
    unfold iOptron_ParseRA
    rw [if_pos (checkValid_concat A)]
    dsimp only
    rw [atoiM_digits_append hA (by decide) (by decide) (by decide) (by decide) [],
      (takeWhile_digits_append hA (by decide) []).2, parseRA_minsec_hash]
    congr 1
    push_cast
    ring
  have hshm : ∀ A B : List Char, (∀ c ∈ A, c.isDigit = true) →
      (∀ c ∈ B, c.isDigit = true) →
      iOptron_ParseRA (A ++ ':' :: (B ++ ['#']))
        = norm24 ((digitsToNat A : ℚ) + (digitsToNat B : ℚ) / 60) := by
    intro A B hA hB
    unfold iOptron_ParseRA
    rw [if_pos (by
      rw [show A ++ ':' :: (B ++ ['#']) = (A ++ ':' :: B) ++ ['#'] by simp]
      exact checkValid_concat _)]
    dsimp only
    rw [atoiM_digits_append hA (by decide) (by decide) (by decide) (by decide) _,
      (takeWhile_digits_append hA (by decide) _).2, parseRA_minsec_colon,
      atoiM_digits_append hB (by decide) (by decide) (by decide) (by decide) [],
      (takeWhile_digits_append hB (by decide) []).2, parseRA_sec_hash]
    congr 1
    push_cast
    ring
  have hshs : ∀ A B C : List Char, (∀ c ∈ A, c.isDigit = true) →
      (∀ c ∈ B, c.isDigit = true) → (∀ c ∈ C, c.isDigit = true) →
      iOptron_ParseRA (A ++ ':' :: (B ++ ':' :: (C ++ ['#'])))
        = norm24 ((digitsToNat A : ℚ) + (digitsToNat B : ℚ) / 60
            + (digitsToNat C : ℚ) / 3600) := by
    intro A B C hA hB hC
    unfold iOptron_ParseRA
    rw [if_pos (by
      rw [show A ++ ':' :: (B ++ ':' :: (C ++ ['#']))
        = (A ++ ':' :: (B ++ ':' :: C)) ++ ['#'] by simp]
      exact checkValid_concat _)]
    dsimp only
    rw [atoiM_digits_append hA (by decide) (by decide) (by decide) (by decide) _,
      (takeWhile_digits_append hA (by decide) _).2, parseRA_minsec_colon,
      atoiM_digits_append hB (by decide) (by decide) (by decide) (by decide) _,
      (takeWhile_digits_append hB (by decide) _).2, parseRA_sec_colon,
      atoiM_digits_append hC (by decide) (by decide) (by decide) (by decide) []]
    dsimp only
    congr 1
  refine ⟨fun A hA _ => hsh A hA, fun A B hA hB _ _ => hshm A B hA hB,
    fun A B C hA hB hC _ _ _ => hshs A B C hA hB hC,
    fun q => ⟨norm24_nonneg q, norm24_lt_24 q⟩, ?_⟩
  have hc := hshs ("25".toList) ("30".toList) ("00".toList)
    (by decide) (by decide) (by decide)
  rw [show "25:30:00#".toList
      = "25".toList ++ ':' :: ("30".toList ++ ':' :: ("00".toList ++ ['#']))
    from by decide, hc,
    show digitsToNat ("25".toList) = 25 from by decide,
    show digitsToNat ("30".toList) = 30 from by decide,
    show digitsToNat ("00".toList) = 0 from by decide, norm24_eq]
  norm_num

/-- Witness for the amended C9: the hour-only frame `12#` parses to the
normalization of 12, its value far inside the C `int` range. -/
theorem parseRA_sexagesimal_shapes_witness :
    iOptron_ParseRA ("12".toList ++ ['#'])
      = norm24 ((digitsToNat ("12".toList) : ℚ)) :=
  parseRA_sexagesimal_shapes.1 ("12".toList) (by decide) (by decide)
